import Mathlib

/-!
# A shallow embedding of the `monkey_lang_rust` interpreter

This file embeds the lexer (`src/lexer.rs`, `src/token.rs`, `src/util.rs`),
the parser (`src/parser.rs`), the value and environment model
(`src/object.rs`, `src/environment.rs`), the operator table
(`src/operator.rs`), the built-in table (`src/builtin.rs`) and the
evaluator (`src/evaluator.rs`) of the interpreter, and proves properties
of the embedded definitions.

Modelling conventions:
* Rust `i64` is modelled as `Int`; overflow of `+ - * **` is not claimed
  anywhere and is modelled by exact integer arithmetic.  Rust `/` and `%`
  on `i64` truncate toward zero, i.e. `Int.tdiv` / `Int.tmod`.
* Rust `f64` is modelled as `ℚ` (exact rational arithmetic).  Every fact
  proved about floats in this file only depends on kind dispatch and on
  comparison with `0`, which agree with IEEE semantics on the inputs used.
* Rust `String` / `Vec<char>` are modelled as `List Char`; all observations
  the interpreter makes on strings (scalar count, n-th scalar, equality,
  concatenation) are scalar-based, which `List Char` models exactly.
* `HashMap<String, _>` is only observed through `get`/`insert`/`contains`,
  so it is modelled as an association list with insert-or-replace.
* Stateful methods (`&mut self`, `&mut Environment`) become functions that
  return the updated state; unbounded recursion of the evaluator and the
  Pratt parser is modelled with an explicit fuel argument, where fuel `0`
  yields the distinguished outcome `fuelError` that no real execution
  produces.
-/

namespace Monkey

/-- The token set of `src/token.rs` (`enum Token`).  Keyword constructors are
prefixed with `kw` because their Rust names are Lean keywords. -/
inductive Token where
  | eof
  | ident (s : List Char)
  | int (i : Int)
  | float (q : ℚ)
  | string (s : List Char)
  | char (c : Char)
  | assign
  | plus
  | minus
  | asterisk
  | slash
  | percent
  | power
  | invert
  | eq
  | noteq
  | lt
  | gt
  | lteq
  | gteq
  | and
  | or
  | comma
  | semicolon
  | lparen
  | rparen
  | lbrace
  | rbrace
  | lbracket
  | rbracket
  | function
  | kwLet
  | kwReturn
  | kwTrue
  | kwFalse
  | kwIf
  | kwElse
deriving DecidableEq, Repr

/-- `util::is_identifier` (src/util.rs): ASCII alphabetic, ASCII digit or `_`. -/
def isIdentifierChar (c : Char) : Bool :=
  c.isAlpha || c.isDigit || c = '_'

/-- `util::is_digit` (src/util.rs): ASCII digit or `.`. -/
def isDigitOrDot (c : Char) : Bool :=
  c.isDigit || c = '.'

/-- Modelled from the spec: `util::is_number`, called by `Lexer::get_next_token`
and `Lexer::read_number`, is absent from the packaged `src/util.rs`.  The spec
says a number token is a maximal run of ASCII digits and `.` ("Digit or `.`
starting a number ...: consume a maximal run of digits and `.`"), so
`is_number` accepts exactly an ASCII digit or a dot (identical to
`util::is_digit`). -/
def isNumberChar (c : Char) : Bool :=
  c.isDigit || c = '.'

/-- `util::parse_escaped_character` (src/util.rs): maps the scalar following a
backslash.  Note the final catch-all arm `c => c`: an unrecognised escape is
mapped to the scalar itself, it is not an error. -/
def parseEscapedCharacter (c : Char) : Char :=
  if c = '\\' then '\\'
  else if c = '\'' then '\''
  else if c = '"' then '"'
  else if c = '0' then Char.ofNat 0
  else if c = 'n' then '\n'
  else if c = 'r' then '\r'
  else if c = 't' then '\t'
  else c

/-- Numeric value of a digit string, most significant digit first. -/
def digitsVal (l : List Char) : Nat :=
  l.foldl (fun a c => 10 * a + (c.toNat - 48)) 0

/-- `i64::MAX`, the bound used by Rust's `str::parse::<i64>`. -/
def i64Max : Int := 9223372036854775807

/-- `i32::MAX`.  This is the payload bound of the run-time `Int` object as
declared in the packaged `src/object.rs` (`struct Int { value: i32 }`), and
the bound checked by the stale `parse::<i32>` branch of
`Lexer::get_next_token`. -/
def i32Max : Int := 2147483647

/-- Rust `str::parse::<i64>` restricted to the sign-free inputs the lexer can
pass (runs of digits and dots with the dots already excluded): a non-empty
all-digit string parses to its value when it fits in `i64`, overflow and
non-digit characters are errors. -/
def parseI64 (l : List Char) : Except String Int :=
  if l = [] then .error "cannot parse integer from empty string"
  else if l.all Char.isDigit then
    if (digitsVal l : Int) ≤ i64Max then .ok (digitsVal l)
    else .error "number too large to fit in target type"
  else .error "invalid digit found in string"

/-- Rust `str::parse::<i32>` under the same restriction (only reachable from
the stale re-parsing branch of `Lexer::get_next_token`, see `getNextToken`). -/
def parseI32 (l : List Char) : Except String Int :=
  if l = [] then .error "cannot parse integer from empty string"
  else if l.all Char.isDigit then
    if (digitsVal l : Int) ≤ i32Max then .ok (digitsVal l)
    else .error "number too large to fit in target type"
  else .error "invalid digit found in string"

/-- Rust `str::parse::<f64>` restricted to the runs of digits with at most one
dot that `Lexer::read_number` produces; the decimal value is represented
exactly as a rational. -/
def parseF64 (l : List Char) : Except String ℚ :=
  let intPart := l.takeWhile (fun c => c ≠ '.')
  let rest := l.dropWhile (fun c => c ≠ '.')
  match rest with
  | [] =>
    if intPart ≠ [] && intPart.all Char.isDigit then .ok (digitsVal intPart : ℚ)
    else .error "invalid float literal"
  | _ :: frac =>
    if (intPart ≠ [] || frac ≠ []) && intPart.all Char.isDigit &&
        frac.all Char.isDigit then
      .ok ((digitsVal intPart : ℚ) + (digitsVal frac : ℚ) / (10 ^ frac.length))
    else .error "invalid float literal"

/-- `token::lookup_token` (src/token.rs).  The Rust `match` on the string is
rendered as a chain of equality tests in the same order; the trailing guard
arms dispatch on the first character exactly as the source does.  The
`unreachable!()` arm is modelled as an error that no lexer-produced sequence
hits. -/
def lookupToken (sequence : List Char) : Except String Token :=
  if sequence = ['='] then .ok .assign
  else if sequence = ['+'] then .ok .plus
  else if sequence = ['-'] then .ok .minus
  else if sequence = ['*'] then .ok .asterisk
  else if sequence = ['/'] then .ok .slash
  else if sequence = ['%'] then .ok .percent
  else if sequence = ['*', '*'] then .ok .power
  else if sequence = ['!'] then .ok .invert
  else if sequence = ['=', '='] then .ok .eq
  else if sequence = ['!', '='] then .ok .noteq
  else if sequence = ['<'] then .ok .lt
  else if sequence = ['>'] then .ok .gt
  else if sequence = ['<', '='] then .ok .lteq
  else if sequence = ['>', '='] then .ok .gteq
  else if sequence = ['&', '&'] then .ok .and
  else if sequence = ['|', '|'] then .ok .or
  else if sequence = [','] then .ok .comma
  else if sequence = [';'] then .ok .semicolon
  else if sequence = ['('] then .ok .lparen
  else if sequence = [')'] then .ok .rparen
  else if sequence = ['{'] then .ok .lbrace
  else if sequence = ['}'] then .ok .rbrace
  else if sequence = ['['] then .ok .lbracket
  else if sequence = [']'] then .ok .rbracket
  else if sequence = ['f', 'n'] then .ok .function
  else if sequence = ['l', 'e', 't'] then .ok .kwLet
  else if sequence = ['r', 'e', 't', 'u', 'r', 'n'] then .ok .kwReturn
  else if sequence = ['t', 'r', 'u', 'e'] then .ok .kwTrue
  else if sequence = ['f', 'a', 'l', 's', 'e'] then .ok .kwFalse
  else if sequence = ['i', 'f'] then .ok .kwIf
  else if sequence = ['e', 'l', 's', 'e'] then .ok .kwElse
  else
    let firstChar := sequence.headD (Char.ofNat 0)
    if firstChar = '\'' then .ok (.char ((sequence.drop 1).headD (Char.ofNat 0)))
    else if firstChar = '"' then .ok (.string ((sequence.drop 1).dropLast))
    else if isDigitOrDot firstChar then
      if sequence.contains '.' then
        match parseF64 sequence with
        | .error e => .error e
        | .ok q => .ok (.float q)
      else
        match parseI64 sequence with
        | .error e => .error e
        | .ok i => .ok (.int i)
    else if isIdentifierChar firstChar then .ok (.ident sequence)
    else .error "unreachable: lookup_token called on an impossible sequence"

/-- Rust `char::is_ascii_whitespace`: space, tab, newline, form feed,
carriage return. -/
def isAsciiWhitespace (c : Char) : Bool :=
  c = ' ' || c = '\t' || c = '\n' || c = Char.ofNat 12 || c = '\r'

/-- The lexer state (`struct Lexer`: `input`, `position`, `ch`) is modelled by
the list of not-yet-consumed characters; `ch` is its head.  Consuming a
character (`read_next_char`) drops the head, `peek_next_char` looks at the
second element. -/
abbrev LexerState := List Char

/-- `Lexer::read_number`: take the maximal run of number characters, then
validate the dot count.  The `while` loop over `is_number` is rendered with
`takeWhile`/`dropWhile`. -/
def readNumber (input : LexerState) : Except String (List Char × LexerState) :=
  let l := input.takeWhile isNumberChar
  let rest := input.dropWhile isNumberChar
  if 2 ≤ l.count '.' then .error "two or more dot found in a number literal"
  else if l.length = 1 && l.headD (Char.ofNat 0) = '.' then
    .error "isolated `.` found"
  else .ok (l, rest)

/-- `Lexer::read_identifier`: the maximal run of identifier characters. -/
def readIdentifier (input : LexerState) : List Char × LexerState :=
  (input.takeWhile isIdentifierChar, input.dropWhile isIdentifierChar)

/-- The loop of `Lexer::read_string`.  `acc` starts as `['"']`; each iteration
consumes one scalar (two for an escape); the closing quote is pushed and the
state is advanced past it. -/
def readStringLoop (acc : List Char) : LexerState →
    Except String (List Char × LexerState)
  | [] => .error "unexpected end of a string literal"
  | c :: rest =>
    if c = '"' then .ok (acc ++ ['"'], rest)
    else if c = '\\' then
      match rest with
      | [] => .error "unexpected end of a string literal"
      | e :: rest2 => readStringLoop (acc ++ [parseEscapedCharacter e]) rest2
    else readStringLoop (acc ++ [c]) rest

/-- `Lexer::read_string`; `input` is the state just after the opening `"`. -/
def readString (input : LexerState) : Except String (List Char × LexerState) :=
  readStringLoop ['"'] input

/-- `Lexer::read_character`; `input` is the state just after the opening
`'`. -/
def readCharacter (input : LexerState) :
    Except String (List Char × LexerState) :=
  match input with
  | [] => .error "unexpected end of a character literal"
  | c :: rest =>
    if c = '\'' then .error "unexpected end of a character literal"
    else
      let payload : Except String (Char × LexerState) :=
        if c = '\\' then
          match rest with
          | [] => .error "unexpected end of a character literal"
          | e :: rest2 => .ok (parseEscapedCharacter e, rest2)
        else .ok (c, rest)
      match payload with
      | .error e => .error e
      | .ok (ch, rest2) =>
        match rest2 with
        | [] => .error "unexpected end of a character literal"
        | q :: rest3 =>
          if q = '\'' then .ok (['\'', ch, '\''], rest3)
          else .error "character literal can contain only one character"

/-- Second character of the two-character operator associated to `c` in the
pair table `{'=':"==", '!':"!=", '*':"**", '>':">=", '<':"<=", '&':"&&",
'|':"||"}` of `Lexer::get_next_token`. -/
def secondOfPair (c : Char) : Char :=
  if c = '*' then '*' else if c = '&' then '&' else if c = '|' then '|'
  else '='

/-- `Lexer::get_next_token` (src/lexer.rs).  Whitespace is skipped, the
character class of the head selects the sub-lexer, and the resulting character
sequence is classified through `token::lookup_token`.

The packaged `src/lexer.rs` matches the lookup result against `Option`
(`None`/`Some`) while the packaged `src/token.rs` returns a `Result`; the two
files are from different revisions of the repository.  We keep `token.rs`'s
`Result` (it is the revision consistent with `ast.rs`, `builtin.rs` and the
test suites) and propagate its error; the re-parsing arms of the lexer's final
`match` — including the stale `parse::<i32>` branch, which is unreachable
because `lookup_token` only yields `Token::Float` for sequences containing a
dot — are kept exactly as written in `lexer.rs`. -/
def getNextToken (input0 : LexerState) : Except String (Token × LexerState) :=
  let input := input0.dropWhile isAsciiWhitespace
  match input with
  | [] => .ok (.eof, [])
  | c :: rest =>
    let seqRest : Except String (List Char × LexerState) :=
      if isNumberChar c then readNumber (c :: rest)
      else if isIdentifierChar c then .ok (readIdentifier (c :: rest))
      else if c = '"' then readString rest
      else if c = '\'' then readCharacter rest
      else if c = '=' || c = '!' || c = '*' || c = '>' || c = '<' then
        (match rest with
         | [] => .ok ([c], ([] : List Char))
         | n :: rest2 =>
           if n = secondOfPair c then .ok ([c, n], rest2)
           else .ok ([c], n :: rest2))
      else if c = '&' || c = '|' then
        (match rest with
         | [] => .error "unexpected end of input"
         | n :: rest2 =>
           if n = secondOfPair c then .ok ([c, n], rest2)
           else .error ("`" ++ String.mk [c, secondOfPair c] ++
             "` expected but not found"))
      else .ok ([c], rest)
    match seqRest with
    | .error e => .error e
    | .ok (sequence, rest') =>
      match lookupToken sequence with
      | .error e => .error e
      | .ok t =>
        match t with
        | .ident _ => .ok (.ident sequence, rest')
        | .float _ =>
          if sequence.contains '.' then
            match parseF64 sequence with
            | .error e => .error e
            | .ok q => .ok (.float q, rest')
          else
            match parseI32 sequence with
            | .error e => .error e
            | .ok i => .ok (.int i, rest')
        | .string _ => .ok (.string ((sequence.drop 1).dropLast), rest')
        | .char _ => .ok (.char ((sequence.drop 1).headD (Char.ofNat 0)), rest')
        | t => .ok (t, rest')

/-- The token-collection driver used by the test harnesses (`__eval` in
src/evaluator.rs, `get_tokens` in src/parser.rs): call `get_next_token`
until `Eof`, then append `Eof` as the guard. -/
def lexAll : Nat → LexerState → Except String (List Token)
  | 0, _ => .error "insufficient fuel"
  | fuel + 1, input =>
    match getNextToken input with
    | .error e => .error e
    | .ok (.eof, _) => .ok [.eof]
    | .ok (t, rest) =>
      match lexAll fuel rest with
      | .error e => .error e
      | .ok ts => .ok (t :: ts)

/-!
## AST (src/ast.rs)

The trait-object node hierarchy is rendered as two mutually inductive sum
types, one per node category (see the spec's design note on closed tagged
variants).  `RootNode` and `BlockExpressionNode` both carry a statement
sequence, modelled as `List Stmt`; `FunctionLiteralNode.parameters` is the
list of identifier names (`IdentifierNode::get_name`).  Identifier names and
string payloads stay `List Char`, matching the lexer.
-/

mutual
inductive Stmt where
  | letStmt (name : List Char) (value : Expr)
  | returnStmt (value : Option Expr)
  | exprStmt (e : Expr)
inductive Expr where
  | ident (name : List Char)
  | intLit (i : Int)
  | floatLit (q : ℚ)
  | boolLit (b : Bool)
  | charLit (c : Char)
  | strLit (s : List Char)
  | arrayLit (elements : List Expr)
  | functionLit (parameters : List (List Char)) (body : List Stmt)
  | block (statements : List Stmt)
  | unary (operator : Token) (expression : Expr)
  | binary (operator : Token) (left : Expr) (right : Expr)
  | index (array : Expr) (idx : Expr)
  | call (function : Expr) (arguments : List Expr)
  | ifExpr (condition : Expr) (ifValue : List Stmt)
      (elseValue : Option (List Stmt))
end

/-- The root of a program (`RootNode`): a statement sequence. -/
abbrev Root := List Stmt

/-!
## Values and environments (src/object.rs, src/environment.rs)

The built-in functions of src/builtin.rs hold host closures; each closure is
identified here by a tag, and `callBuiltin` below gives the tag its meaning.
`Obj.function` stores parameters, body and the captured environment exactly
as `struct Function` does.  An `Environment` is its map plus an optional
outer environment; the `HashMap` is an association list with
insert-or-replace.
-/

inductive BuiltinTag where
  | print
  | eprint
  | exit
  | len
  | append
  | toBool
  | toStr
  | toInt
  | toFloat
deriving DecidableEq, Repr

mutual
inductive Obj where
  | null
  | int (value : Int)
  | float (value : ℚ)
  | bool (value : Bool)
  | char (value : Char)
  | str (value : List Char)
  | array (elements : List Obj)
  | returnValue (value : Obj)
  | function (parameters : List (List Char)) (body : List Stmt) (env : Env)
  | builtinFunction (parameters : List (List Char)) (tag : BuiltinTag)
inductive Env where
  | mk (m : List (List Char × Obj)) (outer : Option Env)
end

/-- Lookup in the association list modelling the scope's `HashMap`. -/
def lookupList (m : List (List Char × Obj)) (key : List Char) : Option Obj :=
  match m with
  | [] => none
  | (k, v) :: rest => if k = key then some v else lookupList rest key

/-- Insert-or-replace in the association list modelling `HashMap::insert`. -/
def insertList (m : List (List Char × Obj)) (key : List Char) (v : Obj) :
    List (List Char × Obj) :=
  match m with
  | [] => [(key, v)]
  | (k, v') :: rest =>
    if k = key then (key, v) :: rest else (k, v') :: insertList rest key v

/-- The current scope's map of an environment. -/
def Env.m : Env → List (List Char × Obj)
  | .mk m _ => m

/-- The outer link of an environment. -/
def Env.outer : Env → Option Env
  | .mk _ o => o

/-- `Environment::get`: current scope first, then the outer chain. -/
def Env.get : Env → List Char → Option Obj
  | .mk m outer, key =>
    match lookupList m key with
    | some e => some e
    | none =>
      match outer with
      | none => none
      | some e => Env.get e key

/-- `Environment::set`: unconditional insert into the current scope. -/
def Env.set : Env → List Char → Obj → Env
  | .mk m outer, key, v => .mk (insertList m key v) outer

/-- `Environment::try_set`: error when the key is already in the current
scope (the outer chain is not consulted), insert otherwise. -/
def Env.trySet : Env → List Char → Obj → Except String Env
  | .mk m outer, key, v =>
    match lookupList m key with
    | none => .ok (.mk (insertList m key v) outer)
    | some _ => .error ("`" ++ String.mk key ++ "` is already defined")

/-- `Environment::set_outer`: recursive so that the new outer environment is
attached at the outer-most end of the chain. -/
def Env.setOuter : Env → Option Env → Env
  | .mk m none, newOuter => .mk m newOuter
  | .mk m (some e), newOuter => .mk m (some (Env.setOuter e newOuter))

/-- The chain of scope maps of an environment, inner-most first (a
specification-side view used to state properties of `Env.setOuter`). -/
def envChain : Env → List (List (List Char × Obj))
  | .mk m none => [m]
  | .mk m (some e) => m :: envChain e

/-!
## Operators (src/operator.rs)

Each `binary_*`/`unary_*` function dispatches on the runtime kinds of its
operands via `try_cast` chains; the chains become nested pattern matches in
source order.  Rust `i64` `/` and `%` truncate toward zero (`Int.tdiv`,
`Int.tmod`).
-/

/-- `operator::unary_minus`. -/
def unaryMinus (o : Obj) : Except String Obj :=
  match o with
  | .int v => .ok (.int (-v))
  | .float v => .ok (.float (-v))
  | _ => .error "operand of unary `-` is not a number"

/-- `operator::unary_invert`. -/
def unaryInvert (o : Obj) : Except String Obj :=
  match o with
  | .bool v => .ok (.bool (!v))
  | _ => .error "operand of unary `!` is not a boolean"

/-- `operator::binary_plus`. -/
def binaryPlus (left right : Obj) : Except String Obj :=
  match left, right with
  | .int a, .int b => .ok (.int (a + b))
  | .float a, .float b => .ok (.float (a + b))
  | .str a, .str b => .ok (.str (a ++ b))
  | .array a, .array b => .ok (.array (a ++ b))
  | _, _ => .error "operand of binary `+` is not a number, a string nor an array"

/-- `operator::binary_minus`. -/
def binaryMinus (left right : Obj) : Except String Obj :=
  match left, right with
  | .int a, .int b => .ok (.int (a - b))
  | .float a, .float b => .ok (.float (a - b))
  | _, _ => .error "operand of binary `-` is not a number"

/-- `operator::binary_asterisk`. -/
def binaryAsterisk (left right : Obj) : Except String Obj :=
  match left, right with
  | .int a, .int b => .ok (.int (a * b))
  | .float a, .float b => .ok (.float (a * b))
  | _, _ => .error "operand of binary `*` is not a number"

/-- `operator::binary_slash` (src/operator.rs lines 79-93).  NOTE: the `Int`
branch of the source tests `t.0.value() == 0` — the LEFT operand (the
dividend) — for zero, unlike the `Float` branch and both branches of
`binary_percent`, which test `t.1` (the divisor).  The embedding reproduces
this faithfully.  When the guard is passed with a zero divisor (e.g. `5 / 0`)
the host `i64` division panics in Rust; the total function `Int.tdiv` returns
`0` there, a point no theorem below relies on. -/
def binarySlash (left right : Obj) : Except String Obj :=
  match left, right with
  | .int a, .int b =>
    if a = 0 then .error "zero division"
    else .ok (.int (Int.tdiv a b))
  | .float a, .float b =>
    if b = 0 then .error "zero division"
    else .ok (.float (a / b))
  | _, _ => .error "operand of binary `/` is not a number"

/-- `operator::binary_percent` (src/operator.rs lines 95-109): both branches
test the divisor `t.1` for zero. -/
def binaryPercent (left right : Obj) : Except String Obj :=
  match left, right with
  | .int a, .int b =>
    if b = 0 then .error "zero division in `%`"
    else .ok (.int (Int.tmod a b))
  | .float a, .float b =>
    if b = 0 then .error "zero division in `%`"
    else .ok (.float (a - b * (Int.tdiv (a / b).num (a / b).den : ℚ)))
  | _, _ => .error "operand of binary `%` is not a number"

/-- Host `f64::powf` on the rational float model: exact when the exponent is
an integer (which covers every test of the repository); for a non-integer
exponent the transcendental result is not representable and is modelled by
`0`.  No claim depends on this function's value. -/
def floatPowf (a b : ℚ) : ℚ :=
  if b.den = 1 then a ^ b.num else 0

/-- `operator::binary_power`.  `t.1.value() as u32` wraps modulo `2^32`; the
exponent is non-negative when the cast is reached. -/
def binaryPower (left right : Obj) : Except String Obj :=
  match left, right with
  | .int a, .int b =>
    if b < 0 then .error "negative exponent in <int>**<int> operation"
    else .ok (.int (a ^ (b.toNat % 2 ^ 32)))
  | .float a, .float b => .ok (.float (floatPowf a b))
  | _, _ => .error "operand of binary `**` is not a number"

/-- Lexicographic order on scalar lists: the order of Rust `String`
comparison (UTF-8 byte order coincides with scalar order) and of
`Vec`-style prefix comparison. -/
def listCharLt : List Char → List Char → Bool
  | [], [] => false
  | [], _ :: _ => true
  | _ :: _, [] => false
  | a :: as, b :: bs =>
    if a < b then true else if b < a then false else listCharLt as bs

/-- `operator::binary_eq`. -/
def binaryEq (left right : Obj) : Except String Obj :=
  match left, right with
  | .int a, .int b => .ok (.bool (a = b))
  | .float a, .float b => .ok (.bool (a = b))
  | .bool a, .bool b => .ok (.bool (a = b))
  | .char a, .char b => .ok (.bool (a = b))
  | .str a, .str b => .ok (.bool (a = b))
  | _, _ => .error "unsupported operand type for binary `==`"

/-- `operator::binary_noteq`. -/
def binaryNoteq (left right : Obj) : Except String Obj :=
  match left, right with
  | .int a, .int b => .ok (.bool (a ≠ b))
  | .float a, .float b => .ok (.bool (a ≠ b))
  | .bool a, .bool b => .ok (.bool (a ≠ b))
  | .char a, .char b => .ok (.bool (a ≠ b))
  | .str a, .str b => .ok (.bool (a ≠ b))
  | _, _ => .error "unsupported operand type for binary `!=`"

/-- `operator::binary_lt`. -/
def binaryLt (left right : Obj) : Except String Obj :=
  match left, right with
  | .int a, .int b => .ok (.bool (a < b))
  | .float a, .float b => .ok (.bool (a < b))
  | .char a, .char b => .ok (.bool (a < b))
  | .str a, .str b => .ok (.bool (listCharLt a b))
  | _, _ => .error "unsupported operand type for binary `<`"

/-- `operator::binary_gt`. -/
def binaryGt (left right : Obj) : Except String Obj :=
  match left, right with
  | .int a, .int b => .ok (.bool (b < a))
  | .float a, .float b => .ok (.bool (b < a))
  | .char a, .char b => .ok (.bool (b < a))
  | .str a, .str b => .ok (.bool (listCharLt b a))
  | _, _ => .error "unsupported operand type for binary `>`"

/-- `operator::binary_lteq`. -/
def binaryLteq (left right : Obj) : Except String Obj :=
  match left, right with
  | .int a, .int b => .ok (.bool (a ≤ b))
  | .float a, .float b => .ok (.bool (a ≤ b))
  | .char a, .char b => .ok (.bool (a ≤ b))
  | .str a, .str b => .ok (.bool (!listCharLt b a))
  | _, _ => .error "unsupported operand type for binary `<=`"

/-- `operator::binary_gteq`. -/
def binaryGteq (left right : Obj) : Except String Obj :=
  match left, right with
  | .int a, .int b => .ok (.bool (b ≤ a))
  | .float a, .float b => .ok (.bool (b ≤ a))
  | .char a, .char b => .ok (.bool (b ≤ a))
  | .str a, .str b => .ok (.bool (!listCharLt a b))
  | _, _ => .error "unsupported operand type for binary `>=`"

/-- `operator::binary_and`. -/
def binaryAnd (left right : Obj) : Except String Obj :=
  match left, right with
  | .bool a, .bool b => .ok (.bool (a && b))
  | _, _ => .error "operand of binary `&&` is not a boolean"

/-- `operator::binary_or` (the source's error message lacks the closing
backtick). -/
def binaryOr (left right : Obj) : Except String Obj :=
  match left, right with
  | .bool a, .bool b => .ok (.bool (a || b))
  | _, _ => .error "operand of binary `|| is not a boolean"

/-!
## Built-ins (src/builtin.rs)
-/

/-- The `f64` value of `std::f64::consts::PI`, as an exact rational
(`884279719003555 * 2^-48`). -/
def piF64 : ℚ := 884279719003555 / 281474976710656

/-- `Builtin::lookup_builtin_identifier` over the table built by
`initialize_builtin`: the ten entries, keyed by name, in insertion order.
(`HashMap` lookup is order-insensitive; the keys are distinct.) -/
def lookupBuiltinIdentifier (s : List Char) : Option Obj :=
  if s = ['p', 'r', 'i', 'n', 't'] then
    some (.builtinFunction [['o']] .print)
  else if s = ['e', 'p', 'r', 'i', 'n', 't'] then
    some (.builtinFunction [['o']] .eprint)
  else if s = ['e', 'x', 'i', 't'] then
    some (.builtinFunction [['i']] .exit)
  else if s = ['l', 'e', 'n'] then
    some (.builtinFunction [['l']] .len)
  else if s = ['a', 'p', 'p', 'e', 'n', 'd'] then
    some (.builtinFunction [['l'], ['v']] .append)
  else if s = ['b', 'o', 'o', 'l'] then
    some (.builtinFunction [['v']] .toBool)
  else if s = ['s', 't', 'r'] then
    some (.builtinFunction [['v']] .toStr)
  else if s = ['i', 'n', 't'] then
    some (.builtinFunction [['v']] .toInt)
  else if s = ['f', 'l', 'o', 'a', 't'] then
    some (.builtinFunction [['v']] .toFloat)
  else if s = ['p', 'i'] then
    some (.float piF64)
  else none

/-- Rust `.unwrap()` on a missing parameter binding panics; the panic is
modelled by this error, which no call through the evaluator produces
(the call machinery always binds every parameter). -/
def paramMissingMsg : String := "unwrap panic: builtin parameter missing"

/-- The `print` closure: writes to stdout (a side effect outside the value
semantics) and returns `Null`. -/
def builtinPrint (env : Env) : Except String Obj :=
  match env.get ['o'] with
  | none => .error paramMissingMsg
  | some _ => .ok .null

/-- The `eprint` closure: stderr variant of `print`. -/
def builtinEprint (env : Env) : Except String Obj :=
  match env.get ['o'] with
  | none => .error paramMissingMsg
  | some _ => .ok .null

/-- The `exit` closure: on an `Int` argument the host process terminates
(`process::exit`), which never returns a value and is modelled by a
distinguished error; any other kind is `"argument type mismatch"`. -/
def builtinExit (env : Env) : Except String Obj :=
  match env.get ['i'] with
  | none => .error paramMissingMsg
  | some (.int _) => .error "process exit"
  | some _ => .error "argument type mismatch"

/-- The `len` closure: scalar count of a `Str`, element count of an
`Array`. -/
def builtinLen (env : Env) : Except String Obj :=
  match env.get ['l'] with
  | none => .error paramMissingMsg
  | some (.str s) => .ok (.int s.length)
  | some (.array a) => .ok (.int a.length)
  | some _ => .error "argument type mismatch"

/-- The `append` closure: a fresh array with the second argument pushed. -/
def builtinAppend (env : Env) : Except String Obj :=
  match env.get ['l'] with
  | none => .error paramMissingMsg
  | some (.array a) =>
    (match env.get ['v'] with
     | none => .error paramMissingMsg
     | some v => .ok (.array (a ++ [v])))
  | some _ => .error "argument type mismatch"

/-- The `bool` cast closure: accepts `Int`, `Float`, `Str`, `Array` — note,
not `Bool` itself. -/
def builtinBool (env : Env) : Except String Obj :=
  match env.get ['v'] with
  | none => .error paramMissingMsg
  | some (.int v) => .ok (.bool (v ≠ 0))
  | some (.float v) => .ok (.bool (v ≠ 0))
  | some (.str v) => .ok (.bool (!v.isEmpty))
  | some (.array v) => .ok (.bool (!v.isEmpty))
  | some _ => .error "argument type mismatch"

/-- The `str` cast closure: accepts `Char` only — not `Str` itself. -/
def builtinStr (env : Env) : Except String Obj :=
  match env.get ['v'] with
  | none => .error paramMissingMsg
  | some (.char c) => .ok (.str [c])
  | some _ => .error "argument type mismatch"

/-- The `int` cast closure: accepts `Float` only — not `Int` itself.  The
`as i64` cast truncates toward zero (saturation outside the `i64` range is
not modelled; no claim depends on it). -/
def builtinInt (env : Env) : Except String Obj :=
  match env.get ['v'] with
  | none => .error paramMissingMsg
  | some (.float v) => .ok (.int (Int.tdiv v.num v.den))
  | some _ => .error "argument type mismatch"

/-- The `float` cast closure: accepts `Int` only — not `Float` itself.  The
`as f64` cast is exact in the rational model (precision loss above `2^53` is
not modelled; no claim depends on it). -/
def builtinFloat (env : Env) : Except String Obj :=
  match env.get ['v'] with
  | none => .error paramMissingMsg
  | some (.int v) => .ok (.float (v : ℚ))
  | some _ => .error "argument type mismatch"

/-- `BuiltinFunction::call`: dispatch to the host closure named by the
tag. -/
def callBuiltin : BuiltinTag → Env → Except String Obj
  | .print, env => builtinPrint env
  | .eprint, env => builtinEprint env
  | .exit, env => builtinExit env
  | .len, env => builtinLen env
  | .append, env => builtinAppend env
  | .toBool, env => builtinBool env
  | .toStr, env => builtinStr env
  | .toInt, env => builtinInt env
  | .toFloat, env => builtinFloat env

/-!
## Evaluator (src/evaluator.rs)

`eval(&self, node, env: &mut Environment) → EvalResult` becomes a function
returning the pair of the result and the (possibly mutated) environment; on
an error the environment still carries every mutation made before the error,
exactly as the `&mut` borrow does.  Unbounded recursion (user functions may
recurse) is modelled with fuel: every evaluator function matches its fuel
argument and passes the predecessor to every nested evaluator call, so a run
that the real interpreter finishes is reproduced by every sufficiently large
fuel.  Fuel exhaustion yields the distinguished message `fuelMsg`, which no
real execution produces.
-/

/-- Distinguished fuel-exhaustion marker (not a message of the source). -/
def fuelMsg : String := "insufficient fuel"

/-- `unreachable!()` arms of the source (kind invariants the evaluator
guarantees). -/
def unreachableMsg : String := "unreachable code reached"

/-- The result-and-state pair of one evaluator step. -/
abbrev EvalOut := Except String Obj × Env

/-- Rust `{:?}` debug rendering of a token, used in evaluator/parser error
messages. -/
def tokenDebug : Token → String
  | .eof => "Eof"
  | .ident s => "Ident(\"" ++ String.mk s ++ "\")"
  | .int i => "Int(" ++ toString i ++ ")"
  | .float q => "Float(" ++ toString q ++ ")"
  | .string s => "String(\"" ++ String.mk s ++ "\")"
  | .char c => "Char('" ++ String.mk [c] ++ "')"
  | .assign => "Assign"
  | .plus => "Plus"
  | .minus => "Minus"
  | .asterisk => "Asterisk"
  | .slash => "Slash"
  | .percent => "Percent"
  | .power => "Power"
  | .invert => "Invert"
  | .eq => "Eq"
  | .noteq => "NotEq"
  | .lt => "Lt"
  | .gt => "Gt"
  | .lteq => "LtEq"
  | .gteq => "GtEq"
  | .and => "And"
  | .or => "Or"
  | .comma => "Comma"
  | .semicolon => "Semicolon"
  | .lparen => "Lparen"
  | .rparen => "Rparen"
  | .lbrace => "Lbrace"
  | .rbrace => "Rbrace"
  | .lbracket => "Lbracket"
  | .rbracket => "Rbracket"
  | .function => "Function"
  | .kwLet => "Let"
  | .kwReturn => "Return"
  | .kwTrue => "True"
  | .kwFalse => "False"
  | .kwIf => "If"
  | .kwElse => "Else"

/-- `Evaluator::eval_identifier_node`: consult the built-in table FIRST, then
walk the environment chain.  (A leaf: it neither recurses nor mutates.) -/
def evalIdentifierNode (name : List Char) (env : Env) : Except String Obj :=
  match lookupBuiltinIdentifier name with
  | some e => .ok e
  | none =>
    match env.get name with
    | none => .error ("`" ++ String.mk name ++ "` is not defined")
    | some e => .ok e

/-- `FunctionBase::num_parameter`'s parameter list for either callable
kind. -/
def calleeParameters : Obj → List (List Char)
  | .function ps _ _ => ps
  | .builtinFunction ps _ => ps
  | _ => []

mutual

/-- `Evaluator::eval` restricted to statement nodes: the downcast dispatch on
`LetStatementNode` / `ReturnStatementNode` / `ExpressionStatementNode`. -/
def evalStmt : Nat → Stmt → Env → EvalOut
  | 0, _, env => (.error fuelMsg, env)
  | f + 1, .letStmt name e, env => evalLetStatementNode f name e env
  | f + 1, .returnStmt v, env => evalReturnStatementNode f v env
  | f + 1, .exprStmt e, env => evalExpressionStatementNode f e env

/-- `Evaluator::eval` restricted to expression nodes: the downcast dispatch
on the expression node types, with the leaf literal evaluators
(`eval_integer_literal_node` … `eval_function_literal_node`,
`eval_identifier_node`) inlined at their dispatch sites. -/
def evalExpr : Nat → Expr → Env → EvalOut
  | 0, _, env => (.error fuelMsg, env)
  | f + 1, .block stmts, env => evalBlockExpressionNode f stmts env
  | f + 1, .unary op ex, env => evalUnaryExpressionNode f op ex env
  | f + 1, .binary op l r, env => evalBinaryExpressionNode f op l r env
  | f + 1, .index a i, env => evalIndexExpressionNode f a i env
  | f + 1, .call fe args, env => evalCallExpressionNode f fe args env
  | f + 1, .ifExpr c t e, env => evalIfExpressionNode f c t e env
  | _ + 1, .intLit i, env => (.ok (.int i), env)
  | _ + 1, .floatLit q, env => (.ok (.float q), env)
  | _ + 1, .boolLit b, env => (.ok (.bool b), env)
  | _ + 1, .charLit c, env => (.ok (.char c), env)
  | _ + 1, .strLit s, env => (.ok (.str s), env)
  | f + 1, .arrayLit es, env => evalArrayLiteralNode f es env
  | _ + 1, .functionLit ps body, env => (.ok (.function ps body env), env)
  | _ + 1, .ident name, env => (evalIdentifierNode name env, env)

/-- `Evaluator::eval_root_node`: iterate the statements, threading the
environment; a `ReturnValue` sub-result is immediately returned UNWRAPPED;
otherwise the last statement's value (or `Null` for an empty program) is the
result. -/
def evalRootNode : Nat → List Stmt → Env → EvalOut
  | 0, _, env => (.error fuelMsg, env)
  | _ + 1, [], env => (.ok .null, env)
  | f + 1, s :: rest, env =>
    match evalStmt f s env with
    | (.error e, env') => (.error e, env')
    | (.ok ret, env') =>
      match ret with
      | .returnValue v => (.ok v, env')
      | _ =>
        match rest with
        | [] => (.ok ret, env')
        | _ => evalRootNode f rest env'

/-- `Evaluator::eval_block_expression_node`: a fresh child environment is
created for the block; the loop is `evalBlockLoop`.  The caller's
environment is returned untouched (`env: &Environment` is an immutable
borrow). -/
def evalBlockExpressionNode : Nat → List Stmt → Env → EvalOut
  | 0, _, env => (.error fuelMsg, env)
  | f + 1, stmts, env =>
    match evalBlockLoop f stmts (Env.mk [] (some env)) with
    | (.error e, _) => (.error e, env)
    | (.ok o, _) => (.ok o, env)

/-- The statement loop of `eval_block_expression_node`: identical iteration
to `eval_root_node`, except that a `ReturnValue` sub-result `break`s the loop
and is returned still WRAPPED. -/
def evalBlockLoop : Nat → List Stmt → Env → EvalOut
  | 0, _, env => (.error fuelMsg, env)
  | _ + 1, [], env => (.ok .null, env)
  | f + 1, s :: rest, env =>
    match evalStmt f s env with
    | (.error e, env') => (.error e, env')
    | (.ok ret, env') =>
      match ret with
      | .returnValue v => (.ok (.returnValue v), env')
      | _ =>
        match rest with
        | [] => (.ok ret, env')
        | _ => evalBlockLoop f rest env'

/-- `Evaluator::eval_let_statement_node`: refuse a built-in name BEFORE
evaluating the right-hand side; then evaluate the right-hand side in the
current environment; then `try_set` into the current scope. -/
def evalLetStatementNode : Nat → List Char → Expr → Env → EvalOut
  | 0, _, _, env => (.error fuelMsg, env)
  | f + 1, name, e, env =>
    match lookupBuiltinIdentifier name with
    | some _ => (.error ("`" ++ String.mk name ++ "` is a built-in identifier"), env)
    | none =>
      match evalExpr f e env with
      | (.error er, env') => (.error er, env')
      | (.ok o, env') =>
        match env'.trySet name o with
        | .error er => (.error er, env')
        | .ok env'' => (.ok .null, env'')

/-- `Evaluator::eval_return_statement_node`: wrap the optional expression's
value (absent → `Null`) in a `ReturnValue`. -/
def evalReturnStatementNode : Nat → Option Expr → Env → EvalOut
  | 0, _, env => (.error fuelMsg, env)
  | _ + 1, none, env => (.ok (.returnValue .null), env)
  | f + 1, some e, env =>
    match evalExpr f e env with
    | (.error er, env') => (.error er, env')
    | (.ok o, env') => (.ok (.returnValue o), env')

/-- `Evaluator::eval_expression_statement_node`. -/
def evalExpressionStatementNode : Nat → Expr → Env → EvalOut
  | 0, _, env => (.error fuelMsg, env)
  | f + 1, e, env => evalExpr f e env

/-- `Evaluator::eval_unary_expression_node`. -/
def evalUnaryExpressionNode : Nat → Token → Expr → Env → EvalOut
  | 0, _, _, env => (.error fuelMsg, env)
  | f + 1, op, ex, env =>
    match evalExpr f ex env with
    | (.error e, env') => (.error e, env')
    | (.ok o, env') =>
      ((match op with
        | .minus => unaryMinus o
        | .invert => unaryInvert o
        | t => .error ("unknown unary operator: `" ++ tokenDebug t ++ "`")),
       env')

/-- `Evaluator::eval_binary_expression_node`: the left operand is fully
evaluated before the right, then the operator table dispatches. -/
def evalBinaryExpressionNode : Nat → Token → Expr → Expr → Env → EvalOut
  | 0, _, _, _, env => (.error fuelMsg, env)
  | f + 1, op, l, r, env =>
    match evalExpr f l env with
    | (.error e, env₁) => (.error e, env₁)
    | (.ok lv, env₁) =>
      match evalExpr f r env₁ with
      | (.error e, env₂) => (.error e, env₂)
      | (.ok rv, env₂) =>
        ((match op with
          | .plus => binaryPlus lv rv
          | .minus => binaryMinus lv rv
          | .asterisk => binaryAsterisk lv rv
          | .slash => binarySlash lv rv
          | .percent => binaryPercent lv rv
          | .power => binaryPower lv rv
          | .eq => binaryEq lv rv
          | .noteq => binaryNoteq lv rv
          | .lt => binaryLt lv rv
          | .gt => binaryGt lv rv
          | .lteq => binaryLteq lv rv
          | .gteq => binaryGteq lv rv
          | .and => binaryAnd lv rv
          | .or => binaryOr lv rv
          | t => .error ("unknown binary operator: `" ++ tokenDebug t ++ "`")),
         env₂)

/-- `Indexable::num_element`: cached scalar count of a `Str`, element count
of an `Array`. -/
def numElement : Obj → Nat
  | .str s => s.length
  | .array a => a.length
  | _ => 0

/-- `Evaluator::eval_index_expression_node`, part 1 — the `let array = loop
{ ... }` target resolution: only an identifier, array literal or string
literal may be indexed; an identifier must resolve to an `Array` or `Str`. -/
def evalIndexTarget : Nat → Expr → Env → EvalOut
  | 0, _, env => (.error fuelMsg, env)
  | f + 1, arrayNode, env =>
    match arrayNode with
    | .arrayLit _ =>
      (match evalExpr f arrayNode env with
       | (.error e, env') => (.error e, env')
       | (.ok o, env') =>
         match o with
         | .array a => (.ok (.array a), env')
         | _ => (.error unreachableMsg, env'))
    | .strLit _ =>
      (match evalExpr f arrayNode env with
       | (.error e, env') => (.error e, env')
       | (.ok o, env') =>
         match o with
         | .str s => (.ok (.str s), env')
         | _ => (.error unreachableMsg, env'))
    | .ident name =>
      (match evalIdentifierNode name env with
       | .error e => (.error e, env)
       | .ok o =>
         match o with
         | .array a => (.ok (.array a), env)
         | .str s => (.ok (.str s), env)
         | _ =>
           (.error ("`" ++ String.mk name ++ "` is not an array nor a string"),
            env))
    | _ =>
      (.error "only identifier, array literal or string literal can be indexed",
       env)

/-- `Evaluator::eval_index_expression_node`, part 2 — from the evaluation of
the index on: the index must be a non-negative `Int` below
`Indexable::num_element`, and the element (array) or Unicode scalar (string)
at that position is returned. -/
def evalIndexApply : Nat → Obj → Expr → Env → EvalOut
  | 0, _, _, env => (.error fuelMsg, env)
  | f + 1, arr, indexNode, env₁ =>
    match evalExpr f indexNode env₁ with
    | (.error e, env₂) => (.error e, env₂)
    | (.ok idxO, env₂) =>
      match idxO with
      | .int i =>
        if i < 0 then (.error "negative array index not allowed", env₂)
        else if numElement arr ≤ i.toNat then
          (.error "array index out of bounds", env₂)
        else
          (match arr with
           | .array a => (.ok (a.getD i.toNat .null), env₂)
           | .str s => (.ok (.char (s.getD i.toNat (Char.ofNat 0))), env₂)
           | _ => (.error unreachableMsg, env₂))
      | _ => (.error "non-integer array index found", env₂)

/-- `Evaluator::eval_index_expression_node`: the target resolution followed
by the index application. -/
def evalIndexExpressionNode : Nat → Expr → Expr → Env → EvalOut
  | 0, _, _, env => (.error fuelMsg, env)
  | f + 1, arrayNode, indexNode, env =>
    match evalIndexTarget f arrayNode env with
    | (.error e, env') => (.error e, env')
    | (.ok arr, env₁) => evalIndexApply f arr indexNode env₁

/-- The parameter-binding loop of `eval_call_expression_node`: each argument
is evaluated in the CALLER's environment, left to right, and bound to its
parameter name in the fresh frame `function_env`. -/
def evalArgsBind : Nat → List (List Char) → List Expr → Env → Env →
    Except String Env × Env
  | 0, _, _, _, env => (.error fuelMsg, env)
  | _ + 1, [], [], fenv, env => (.ok fenv, env)
  | f + 1, p :: ps, a :: args, fenv, env =>
    match evalExpr f a env with
    | (.error e, env') => (.error e, env')
    | (.ok v, env') => evalArgsBind f ps args (fenv.set p v) env'
  | _ + 1, _, _, _, env => (.error unreachableMsg, env)

/-- `Evaluator::eval_call_expression_node`, part 1: resolve the callee (the
`loop` hack): a function literal always evaluates to a `Function`; an
identifier must resolve to a `Function` or a `BuiltinFunction`; anything else
cannot be called. -/
def evalCallExpressionNode : Nat → Expr → List Expr → Env → EvalOut
  | 0, _, _, env => (.error fuelMsg, env)
  | f + 1, funcNode, args, env =>
    match funcNode with
    | .functionLit _ _ =>
      (match evalExpr f funcNode env with
       | (.error e, env') => (.error e, env')
       | (.ok o, env') =>
         match o with
         | .function ps body cenv =>
           evalCallWithCallee f (.function ps body cenv) args env'
         | _ => (.error unreachableMsg, env'))
    | .ident name =>
      (match evalIdentifierNode name env with
       | .error e => (.error e, env)
       | .ok o =>
         match o with
         | .function ps body cenv =>
           evalCallWithCallee f (.function ps body cenv) args env
         | .builtinFunction ps tag =>
           evalCallWithCallee f (.builtinFunction ps tag) args env
         | _ => (.error ("`" ++ String.mk name ++ "` is not a function"), env))
    | _ => (.error "only identifier or function literal can be called", env)

/-- `Evaluator::eval_call_expression_node`, part 2 (from the arity check on):
check the arity, evaluate-and-bind the arguments into the fresh frame `F`,
then for a `Function` link `C := closure env`, `C.set_outer(caller)`,
`F.set_outer(C)` — the chain `F → C → caller` — evaluate the body as a block
under `F`, and unwrap a `ReturnValue` result; for a `BuiltinFunction` link
`F.set_outer(caller)` and invoke the host closure on `F`. -/
def evalCallWithCallee : Nat → Obj → List Expr → Env → EvalOut
  | 0, _, _, env => (.error fuelMsg, env)
  | f + 1, callee, args, env =>
    if args.length ≠ (calleeParameters callee).length then
      (.error "argument number mismatch", env)
    else
      match evalArgsBind f (calleeParameters callee) args (Env.mk [] none) env with
      | (.error e, env') => (.error e, env')
      | (.ok functionEnv, env₁) =>
        match callee with
        | .function _ body cenv =>
          let e := Env.setOuter cenv (some env₁)
          let functionEnv₂ := Env.setOuter functionEnv (some e)
          (match evalBlockExpressionNode f body functionEnv₂ with
           | (.error er, _) => (.error er, env₁)
           | (.ok result, _) =>
             match result with
             | .returnValue v => (.ok v, env₁)
             | _ => (.ok result, env₁))
        | .builtinFunction _ tag =>
          (callBuiltin tag (Env.setOuter functionEnv (some env₁)), env₁)
        | _ => (.error unreachableMsg, env₁)

/-- `Evaluator::eval_if_expression_node`: the condition must be a `Bool`; the
selected branch is evaluated through the dispatcher as a block expression; a
missing `else` yields `Null`. -/
def evalIfExpressionNode : Nat → Expr → List Stmt → Option (List Stmt) →
    Env → EvalOut
  | 0, _, _, _, env => (.error fuelMsg, env)
  | f + 1, c, thenB, elseB, env =>
    match evalExpr f c env with
    | (.error e, env') => (.error e, env')
    | (.ok o, env₁) =>
      match o with
      | .bool b =>
        if b then evalExpr f (.block thenB) env₁
        else
          match elseB with
          | some bs => evalExpr f (.block bs) env₁
          | none => (.ok .null, env₁)
      | _ => (.error "if condition is not a boolean", env₁)

/-- The element loop of `eval_array_literal_node`. -/
def evalExprList : Nat → List Expr → Env → Except String (List Obj) × Env
  | 0, _, env => (.error fuelMsg, env)
  | _ + 1, [], env => (.ok [], env)
  | f + 1, e :: rest, env =>
    match evalExpr f e env with
    | (.error er, env') => (.error er, env')
    | (.ok o, env') =>
      match evalExprList f rest env' with
      | (.error er, env'') => (.error er, env'')
      | (.ok os, env'') => (.ok (o :: os), env'')

/-- `Evaluator::eval_array_literal_node`. -/
def evalArrayLiteralNode : Nat → List Expr → Env → EvalOut
  | 0, _, env => (.error fuelMsg, env)
  | f + 1, es, env =>
    match evalExprList f es env with
    | (.error er, env') => (.error er, env')
    | (.ok os, env') => (.ok (.array os), env')

end

/-!
## Parser (src/parser.rs)

`Parser` holds a `VecDeque<Token>`; it is modelled by the list of remaining
tokens, threaded through every parsing function.  `Parser::new` asserts that
the sequence is non-empty and ends with `Eof`; theorems about the parser are
stated on such sequences.  The Pratt recursion is fuelled like the
evaluator. -/

/-- `enum ParseError` (src/parser.rs). -/
inductive ParseError where
  | eofErr
  | errorMsg (s : String)
deriving DecidableEq, Repr

/-- Fuel exhaustion marker for the parser (not a message of the source). -/
def parseFuelErr : ParseError := .errorMsg fuelMsg

/-- `unreachable!()` / guard-violating panics of the parser (never hit from a
well-formed token sequence). -/
def parseUnreachable : ParseError := .errorMsg unreachableMsg

/-- `lookup_precedence` (src/parser.rs): the numeric values of
`enum Precedence` are `Lowest = 0`, `Or = 1`, `And = 2`, `Cmp = 3`,
`Sum = 4`, `Product = 5`, `Unary = 6`, `Call = 7`. -/
def lookupPrecedence (t : Token) : Nat :=
  match t with
  | .or => 1
  | .and => 2
  | .eq => 3
  | .noteq => 3
  | .lt => 3
  | .gt => 3
  | .lteq => 3
  | .gteq => 3
  | .plus => 4
  | .minus => 4
  | .asterisk => 5
  | .slash => 5
  | .percent => 5
  | .power => 5
  | .lparen => 7
  | .lbracket => 7
  | .rparen => 0
  | .rbracket => 0
  | _ => 0

/-- `Precedence::Lowest`. -/
def precedenceLowest : Nat := 0

/-- `Precedence::Unary`. -/
def precedenceUnary : Nat := 6

/-- `mem::discriminant` of a token: the constructor index, ignoring the
payload. -/
def tokenDiscriminant : Token → Nat
  | .eof => 0
  | .ident _ => 1
  | .int _ => 2
  | .float _ => 3
  | .string _ => 4
  | .char _ => 5
  | .assign => 6
  | .plus => 7
  | .minus => 8
  | .asterisk => 9
  | .slash => 10
  | .percent => 11
  | .power => 12
  | .invert => 13
  | .eq => 14
  | .noteq => 15
  | .lt => 16
  | .gt => 17
  | .lteq => 18
  | .gteq => 19
  | .and => 20
  | .or => 21
  | .comma => 22
  | .semicolon => 23
  | .lparen => 24
  | .rparen => 25
  | .lbrace => 26
  | .rbrace => 27
  | .lbracket => 28
  | .rbracket => 29
  | .function => 30
  | .kwLet => 31
  | .kwReturn => 32
  | .kwTrue => 33
  | .kwFalse => 34
  | .kwIf => 35
  | .kwElse => 36

/-- `Parser::get_next`: pop the front token; `Eof` is the `Err(Eof)` case; an
empty deque is unreachable (the `Eof` guard). -/
def getNext : List Token → Except ParseError (Token × List Token)
  | [] => .error parseUnreachable
  | .eof :: _ => .error .eofErr
  | t :: rest => .ok (t, rest)

/-- `Parser::peek_next`: like `getNext` but non-consuming. -/
def peekNext : List Token → Except ParseError Token
  | [] => .error parseUnreachable
  | .eof :: _ => .error .eofErr
  | t :: _ => .ok t

/-- `Parser::expect_next`: does the next token have the same discriminant?
(Non-consuming; `false` at `Eof`.) -/
def expectNext (tokens : List Token) (t : Token) : Bool :=
  match peekNext tokens with
  | .error _ => false
  | .ok n => tokenDiscriminant n = tokenDiscriminant t

mutual

/-- The statement loop of `Parser::parse`: stop at `Eof`; CONSUME a stray
`Semicolon` ("empty statement") and continue; otherwise parse a statement,
converting a mid-statement `Eof` into the dedicated message. -/
def parseRootLoop : Nat → List Stmt → List Token →
    Except ParseError (Root × List Token)
  | 0, _, _ => .error parseFuelErr
  | _ + 1, _, [] => .error parseUnreachable
  | f + 1, acc, t :: rest =>
    if t = .eof then .ok (acc, t :: rest)
    else if expectNext (t :: rest) .semicolon then
      parseRootLoop f acc rest
    else
      match parseStatement f (t :: rest) with
      | .error .eofErr =>
        .error (.errorMsg "unexpected eof in the middle of a statement")
      | .error e => .error e
      | .ok (st, rest') => parseRootLoop f (acc ++ [st]) rest'

/-- `Parser::parse`. -/
def parseRoot : Nat → List Token → Except ParseError (Root × List Token)
  | 0, _ => .error parseFuelErr
  | f + 1, tokens => parseRootLoop f [] tokens

/-- `Parser::parse_statement`: dispatch on the lookahead. -/
def parseStatement : Nat → List Token →
    Except ParseError (Stmt × List Token)
  | 0, _ => .error parseFuelErr
  | f + 1, tokens =>
    match peekNext tokens with
    | .error e => .error e
    | .ok .kwLet => parseLetStatement f tokens
    | .ok .kwReturn => parseReturnStatement f tokens
    | .ok _ => parseExpressionStatement f tokens

/-- `Parser::parse_block_expression`: consume the `{` (asserted), then loop
until `}`.  Note there is NO stray-semicolon skipping here, unlike
`parseRootLoop`. -/
def parseBlockExpression : Nat → List Token →
    Except ParseError (List Stmt × List Token)
  | 0, _ => .error parseFuelErr
  | f + 1, tokens =>
    match getNext tokens with
    | .error e => .error e
    | .ok (_, rest) => parseBlockLoop f [] rest

/-- The statement loop of `parse_block_expression`. -/
def parseBlockLoop : Nat → List Stmt → List Token →
    Except ParseError (List Stmt × List Token)
  | 0, _, _ => .error parseFuelErr
  | f + 1, acc, tokens =>
    match peekNext tokens with
    | .error e => .error e
    | .ok .rbrace =>
      (match getNext tokens with
       | .error e => .error e
       | .ok (_, rest) => .ok (acc, rest))
    | .ok _ =>
      match parseStatement f tokens with
      | .error e => .error e
      | .ok (st, rest) => parseBlockLoop f (acc ++ [st]) rest

/-- `Parser::parse_let_statement`: `let <identifier> = <expression>;`. -/
def parseLetStatement : Nat → List Token →
    Except ParseError (Stmt × List Token)
  | 0, _ => .error parseFuelErr
  | f + 1, tokens =>
    match getNext tokens with
    | .error e => .error e
    | .ok (_, rest) =>
      if !expectNext rest (.ident []) then
        .error (.errorMsg "identifier missing or reserved keyword used after `let`")
      else
        match getNext rest with
        | .error e => .error e
        | .ok (identTok, rest₁) =>
          let name := match identTok with
            | .ident n => n
            | _ => []
          if !expectNext rest₁ .assign then
            .error (.errorMsg "`=` missing in `let`")
          else
            match getNext rest₁ with
            | .error e => .error e
            | .ok (_, rest₂) =>
              match parseExpression f precedenceLowest rest₂ with
              | .error e => .error e
              | .ok (expr, rest₃) =>
                if !expectNext rest₃ .semicolon then
                  .error (.errorMsg "`;` missing in `let`")
                else
                  match getNext rest₃ with
                  | .error e => .error e
                  | .ok (_, rest₄) => .ok (.letStmt name expr, rest₄)

/-- `Parser::parse_return_statement`: `return [<expression>];`. -/
def parseReturnStatement : Nat → List Token →
    Except ParseError (Stmt × List Token)
  | 0, _ => .error parseFuelErr
  | f + 1, tokens =>
    match getNext tokens with
    | .error e => .error e
    | .ok (_, rest) =>
      if expectNext rest .semicolon then
        match getNext rest with
        | .error e => .error e
        | .ok (_, rest₁) => .ok (.returnStmt none, rest₁)
      else
        match parseExpression f precedenceLowest rest with
        | .error e => .error e
        | .ok (expr, rest₁) =>
          if !expectNext rest₁ .semicolon then
            .error (.errorMsg "`;` missing in `return`")
          else
            match getNext rest₁ with
            | .error e => .error e
            | .ok (_, rest₂) => .ok (.returnStmt (some expr), rest₂)

/-- `Parser::parse_expression_statement`: `<expression>[;]`. -/
def parseExpressionStatement : Nat → List Token →
    Except ParseError (Stmt × List Token)
  | 0, _ => .error parseFuelErr
  | f + 1, tokens =>
    match parseExpression f precedenceLowest tokens with
    | .error e => .error e
    | .ok (expr, rest) =>
      if expectNext rest .semicolon then
        match getNext rest with
        | .error e => .error e
        | .ok (_, rest₁) => .ok (.exprStmt expr, rest₁)
      else .ok (.exprStmt expr, rest)

/-- `Parser::parse_expression`: the Pratt parser.  First the prefix/nud
dispatch on the current token, then the infix loop. -/
def parseExpression : Nat → Nat → List Token →
    Except ParseError (Expr × List Token)
  | 0, _, _ => .error parseFuelErr
  | f + 1, precedence, tokens =>
    let first : Except ParseError (Expr × List Token) :=
      match peekNext tokens with
      | .error e => .error e
      | .ok t =>
        match t with
        | .lbrace =>
          (match parseBlockExpression f tokens with
           | .error e => .error e
           | .ok (stmts, rest) => .ok (.block stmts, rest))
        | .lparen => parseGroupedExpression f tokens
        | .ident _ =>
          (match parseIdentifier f tokens with
           | .error e => .error e
           | .ok (n, rest) => .ok (.ident n, rest))
        | .int i =>
          (match getNext tokens with
           | .error e => .error e
           | .ok (_, rest) => .ok (.intLit i, rest))
        | .float q =>
          (match getNext tokens with
           | .error e => .error e
           | .ok (_, rest) => .ok (.floatLit q, rest))
        | .kwTrue =>
          (match getNext tokens with
           | .error e => .error e
           | .ok (_, rest) => .ok (.boolLit true, rest))
        | .kwFalse =>
          (match getNext tokens with
           | .error e => .error e
           | .ok (_, rest) => .ok (.boolLit false, rest))
        | .char c =>
          (match getNext tokens with
           | .error e => .error e
           | .ok (_, rest) => .ok (.charLit c, rest))
        | .string s =>
          (match getNext tokens with
           | .error e => .error e
           | .ok (_, rest) => .ok (.strLit s, rest))
        | .lbracket => parseArrayLiteral f tokens
        | .invert => parseUnaryExpression f tokens
        | .minus => parseUnaryExpression f tokens
        | .kwIf => parseIfExpression f tokens
        | .function => parseFunctionLiteral f tokens
        | t =>
          .error (.errorMsg ("unexpected start of expression: " ++ tokenDebug t))
    match first with
    | .error e => .error e
    | .ok (expr, rest) => parseInfixLoop f precedence expr rest

/-- The infix/led loop of `parse_expression`: while the next token is not a
`;` and binds tighter than `precedence`, extend the expression with a call,
an index or a binary node. -/
def parseInfixLoop : Nat → Nat → Expr → List Token →
    Except ParseError (Expr × List Token)
  | 0, _, _, _ => .error parseFuelErr
  | f + 1, precedence, expr, tokens =>
    match peekNext tokens with
    | .error .eofErr => .ok (expr, tokens)
    | .error e => .error e
    | .ok next =>
      if next = .semicolon || lookupPrecedence next ≤ precedence then
        .ok (expr, tokens)
      else
        match
          (match next with
           | .lparen => parseCallExpression f expr tokens
           | .lbracket => parseIndexExpression f expr tokens
           | _ => parseBinaryExpression f expr tokens) with
        | .error e => .error e
        | .ok (expr', rest) => parseInfixLoop f precedence expr' rest

/-- `Parser::parse_grouped_expression`: `(<expression>)`. -/
def parseGroupedExpression : Nat → List Token →
    Except ParseError (Expr × List Token)
  | 0, _ => .error parseFuelErr
  | f + 1, tokens =>
    match getNext tokens with
    | .error e => .error e
    | .ok (_, rest) =>
      match parseExpression f precedenceLowest rest with
      | .error e => .error e
      | .ok (expr, rest₁) =>
        if !expectNext rest₁ .rparen then
          .error (.errorMsg "`)` missing in grouped expression")
        else
          match getNext rest₁ with
          | .error e => .error e
          | .ok (_, rest₂) => .ok (expr, rest₂)

/-- `Parser::parse_identifier` (`IdentifierNode::new(self.get_next()?)`); the
name of a non-identifier token is never observed (`get_name` would panic). -/
def parseIdentifier : Nat → List Token →
    Except ParseError (List Char × List Token)
  | 0, _ => .error parseFuelErr
  | _ + 1, tokens =>
    match getNext tokens with
    | .error e => .error e
    | .ok (.ident n, rest) => .ok (n, rest)
    | .ok (_, rest) => .ok ([], rest)

/-- `Parser::parse_array_literal`: `[<e1>, <e2>, ...]`, trailing comma
allowed. -/
def parseArrayLiteral : Nat → List Token →
    Except ParseError (Expr × List Token)
  | 0, _ => .error parseFuelErr
  | f + 1, tokens =>
    match getNext tokens with
    | .error e => .error e
    | .ok (_, rest) =>
      match parseArrayLiteralLoop f [] rest with
      | .error e => .error e
      | .ok (elems, rest₁) => .ok (.arrayLit elems, rest₁)

/-- The element loop of `parse_array_literal`. -/
def parseArrayLiteralLoop : Nat → List Expr → List Token →
    Except ParseError (List Expr × List Token)
  | 0, _, _ => .error parseFuelErr
  | f + 1, acc, tokens =>
    match peekNext tokens with
    | .error e => .error e
    | .ok .rbracket =>
      (match getNext tokens with
       | .error e => .error e
       | .ok (_, rest) => .ok (acc, rest))
    | .ok _ =>
      match parseExpression f precedenceLowest tokens with
      | .error e => .error e
      | .ok (el, rest) =>
        match peekNext rest with
        | .error e => .error e
        | .ok .rbracket =>
          (match getNext rest with
           | .error e => .error e
           | .ok (_, rest₁) => .ok (acc ++ [el], rest₁))
        | .ok .comma =>
          (match getNext rest with
           | .error e => .error e
           | .ok (_, rest₁) => parseArrayLiteralLoop f (acc ++ [el]) rest₁)
        | .ok _ =>
          .error (.errorMsg "`,` expected but not found in array literal")

/-- `Parser::parse_unary_expression`: `<operator> <expression>` at `Unary`
precedence. -/
def parseUnaryExpression : Nat → List Token →
    Except ParseError (Expr × List Token)
  | 0, _ => .error parseFuelErr
  | f + 1, tokens =>
    match getNext tokens with
    | .error e => .error e
    | .ok (op, rest) =>
      match parseExpression f precedenceUnary rest with
      | .error e => .error e
      | .ok (expr, rest₁) => .ok (.unary op expr, rest₁)

/-- `Parser::parse_binary_expression`: the right-hand side is parsed at the
operator's own precedence (left associativity). -/
def parseBinaryExpression : Nat → Expr → List Token →
    Except ParseError (Expr × List Token)
  | 0, _, _ => .error parseFuelErr
  | f + 1, left, tokens =>
    match getNext tokens with
    | .error e => .error e
    | .ok (op, rest) =>
      match parseExpression f (lookupPrecedence op) rest with
      | .error e => .error e
      | .ok (right, rest₁) => .ok (.binary op left right, rest₁)

/-- `Parser::parse_index_expression`: `<target>[<index>]`. -/
def parseIndexExpression : Nat → Expr → List Token →
    Except ParseError (Expr × List Token)
  | 0, _, _ => .error parseFuelErr
  | f + 1, array, tokens =>
    match getNext tokens with
    | .error e => .error e
    | .ok (_, rest) =>
      if expectNext rest .rbracket then
        .error (.errorMsg "empty index in array index expression")
      else
        match parseExpression f precedenceLowest rest with
        | .error e => .error e
        | .ok (idx, rest₁) =>
          if !expectNext rest₁ .rbracket then
            .error (.errorMsg "`]` missing in array index expression")
          else
            match getNext rest₁ with
            | .error e => .error e
            | .ok (_, rest₂) => .ok (.index array idx, rest₂)

/-- `Parser::parse_call_expression`: `f(<args>)`, trailing comma allowed. -/
def parseCallExpression : Nat → Expr → List Token →
    Except ParseError (Expr × List Token)
  | 0, _, _ => .error parseFuelErr
  | f + 1, function, tokens =>
    match getNext tokens with
    | .error e => .error e
    | .ok (_, rest) =>
      match parseCallArgsLoop f [] rest with
      | .error e => .error e
      | .ok (args, rest₁) => .ok (.call function args, rest₁)

/-- The argument loop of `parse_call_expression`. -/
def parseCallArgsLoop : Nat → List Expr → List Token →
    Except ParseError (List Expr × List Token)
  | 0, _, _ => .error parseFuelErr
  | f + 1, acc, tokens =>
    match peekNext tokens with
    | .error e => .error e
    | .ok .rparen =>
      (match getNext tokens with
       | .error e => .error e
       | .ok (_, rest) => .ok (acc, rest))
    | .ok _ =>
      match parseExpression f precedenceLowest tokens with
      | .error e => .error e
      | .ok (arg, rest) =>
        match peekNext rest with
        | .error e => .error e
        | .ok .rparen =>
          (match getNext rest with
           | .error e => .error e
           | .ok (_, rest₁) => .ok (acc ++ [arg], rest₁))
        | .ok .comma =>
          (match getNext rest with
           | .error e => .error e
           | .ok (_, rest₁) => parseCallArgsLoop f (acc ++ [arg]) rest₁)
        | .ok _ =>
          .error (.errorMsg "`,` expected but not found in argument list")

/-- `Parser::parse_if_expression`:
`if (<expression>) { <statements> } [else { <statements> }]`. -/
def parseIfExpression : Nat → List Token →
    Except ParseError (Expr × List Token)
  | 0, _ => .error parseFuelErr
  | f + 1, tokens =>
    match getNext tokens with
    | .error e => .error e
    | .ok (_, rest) =>
      if !expectNext rest .lparen then
        .error (.errorMsg "`(` missing in `if` condition")
      else
        match getNext rest with
        | .error e => .error e
        | .ok (_, rest₁) =>
          match parseExpression f precedenceLowest rest₁ with
          | .error e => .error e
          | .ok (condition, rest₂) =>
            if !expectNext rest₂ .rparen then
              .error (.errorMsg "`)` missing in `if` condition")
            else
              match getNext rest₂ with
              | .error e => .error e
              | .ok (_, rest₃) =>
                if !expectNext rest₃ .lbrace then
                  .error (.errorMsg "`\x7b` missing in `if` block")
                else
                  match parseBlockExpression f rest₃ with
                  | .error e => .error e
                  | .ok (ifValue, rest₄) =>
                    if !expectNext rest₄ .kwElse then
                      .ok (.ifExpr condition ifValue none, rest₄)
                    else
                      match getNext rest₄ with
                      | .error e => .error e
                      | .ok (_, rest₅) =>
                        if !expectNext rest₅ .lbrace then
                          .error (.errorMsg "`\x7b` missing in `else` block")
                        else
                          match parseBlockExpression f rest₅ with
                          | .error e => .error e
                          | .ok (elseValue, rest₆) =>
                            .ok (.ifExpr condition ifValue (some elseValue),
                              rest₆)

/-- `Parser::parse_function_literal`:
`fn (<parameters>) { <statements> }`, trailing comma allowed. -/
def parseFunctionLiteral : Nat → List Token →
    Except ParseError (Expr × List Token)
  | 0, _ => .error parseFuelErr
  | f + 1, tokens =>
    match getNext tokens with
    | .error e => .error e
    | .ok (_, rest) =>
      if !expectNext rest .lparen then
        .error (.errorMsg "`(` missing in function parameter list")
      else
        match getNext rest with
        | .error e => .error e
        | .ok (_, rest₁) =>
          match parseParametersLoop f [] rest₁ with
          | .error e => .error e
          | .ok (parameters, rest₂) =>
            if !expectNext rest₂ .lbrace then
              .error (.errorMsg "function body missing")
            else
              match parseBlockExpression f rest₂ with
              | .error e => .error e
              | .ok (body, rest₃) =>
                .ok (.functionLit parameters body, rest₃)

/-- The parameter loop of `parse_function_literal`. -/
def parseParametersLoop : Nat → List (List Char) → List Token →
    Except ParseError (List (List Char) × List Token)
  | 0, _, _ => .error parseFuelErr
  | f + 1, acc, tokens =>
    match peekNext tokens with
    | .error e => .error e
    | .ok .rparen =>
      (match getNext tokens with
       | .error e => .error e
       | .ok (_, rest) => .ok (acc, rest))
    | .ok (.ident _) =>
      (match parseIdentifier f tokens with
       | .error e => .error e
       | .ok (n, rest) =>
         match peekNext rest with
         | .error e => .error e
         | .ok .rparen =>
           (match getNext rest with
            | .error e => .error e
            | .ok (_, rest₁) => .ok (acc ++ [n], rest₁))
         | .ok .comma =>
           (match getNext rest with
            | .error e => .error e
            | .ok (_, rest₁) => parseParametersLoop f (acc ++ [n]) rest₁)
         | .ok _ =>
           .error (.errorMsg "`,` expected but not found in parameter list"))
    | .ok t =>
      .error (.errorMsg ("expected identifier but found `" ++ tokenDebug t ++
        "` in function parameter list"))

end

/-!
## Whole-pipeline driver and specification-side helpers
-/

/-- The unwrap that `eval_root_node` (and the call boundary in
`eval_call_expression_node`) applies to a `ReturnValue`: the inner value;
any other object is left unchanged. -/
def unwrapReturn : Obj → Obj
  | .returnValue v => v
  | o => o

/-- The driver used by the REPL (src/repl.rs) and by the test harness
`__eval` (src/evaluator.rs): lex the whole input, parse it, and evaluate the
root against a fresh environment.  Lexical and syntactic errors are
propagated as their message strings (`ParseError::Eof` prints as `"eof"`). -/
def evalSource (fuel : Nat) (src : List Char) : Except String Obj :=
  match lexAll fuel src with
  | .error e => .error e
  | .ok ts =>
    match parseRoot fuel ts with
    | .error .eofErr => .error "eof"
    | .error (.errorMsg m) => .error m
    | .ok (root, _) => (evalRootNode fuel root (Env.mk [] none)).1

/-!
## Theorems
-/

/-- C1.  The claim says `a / b` on two `Int`s fails with "zero division"
exactly when the divisor `b` is zero, and returns the quotient otherwise;
likewise `a % b` with "zero division in `%`".  The code's `binary_slash`
tests the DIVIDEND (`t.0`) instead of the divisor in its `Int` branch:
`0 / 5` errors with "zero division" although its divisor is `5 ≠ 0` (the
claim demands the quotient `0`), while `5 / 0` passes the guard into the
unguarded host division (a Rust panic; the total model returns
`Int.tdiv 5 0 = 0`).  The `%` branches and the `Float` `/` branch test the
divisor as claimed.  This theorem evaluates the embedding at those inputs,
exhibiting the divergence. -/
theorem c1_int_slash_checks_dividend :
    binarySlash (.int 0) (.int 5) = .error "zero division" ∧
    binarySlash (.int 5) (.int 0) = .ok (.int 0) ∧
    binarySlash (.float 5) (.float 0) = .error "zero division" ∧
    binaryPercent (.int 5) (.int 0) = .error "zero division in `%`" ∧
    binaryPercent (.int 0) (.int 5) = .ok (.int 0) := by
  refine ⟨rfl, ?_, ?_, ?_, ?_⟩ <;> simp [binarySlash, binaryPercent]

/-- C6, counterexample.  The claim says a backslash followed by a scalar
outside the escape table (for example `"\p"`) fails with "unknown escape
sequence found".  In fact lexing the four-character input `"\p"` SUCCEEDS
and yields the string token `"p"`: `parse_escaped_character` maps an
unrecognised escape to the scalar itself (its final arm is `c => c`), and no
such error message exists in the lexer. -/
theorem c6_unknown_escape_succeeds :
    getNextToken "\"\\p\"".toList = .ok (.string ['p'], []) := by
  rfl

/-- C6, amended.  When lexing a string or character literal, a backslash
followed by one of `\ ' " 0 n r t` maps to the corresponding escape-table
character, and a backslash followed by any other scalar maps to that scalar
itself (no error is raised); e.g. the character literal `'\p'` lexes to the
char token `p`. -/
theorem c6_escape_table :
    parseEscapedCharacter '\\' = '\\' ∧
    parseEscapedCharacter '\'' = '\'' ∧
    parseEscapedCharacter '"' = '"' ∧
    parseEscapedCharacter '0' = Char.ofNat 0 ∧
    parseEscapedCharacter 'n' = '\n' ∧
    parseEscapedCharacter 'r' = '\r' ∧
    parseEscapedCharacter 't' = '\t' ∧
    (∀ c, c ≠ '\\' → c ≠ '\'' → c ≠ '"' → c ≠ '0' → c ≠ 'n' → c ≠ 'r' →
      c ≠ 't' → parseEscapedCharacter c = c) ∧
    getNextToken "'\\p'".toList = .ok (.char 'p', []) := by
  refine ⟨rfl, rfl, rfl, rfl, rfl, rfl, rfl, ?_, rfl⟩
  intro c h1 h2 h3 h4 h5 h6 h7
  simp [parseEscapedCharacter, h1, h2, h3, h4, h5, h6, h7]

/-- Witness for `c6_escape_table`: the catch-all arm at the concrete scalar
`p` (the claim's own example). -/
theorem c6_escape_table_witness : parseEscapedCharacter 'p' = 'p' :=
  c6_escape_table.2.2.2.2.2.2.2.1 'p' (by decide) (by decide) (by decide)
    (by decide) (by decide) (by decide) (by decide)

/-- C9, counterexample.  The claim says stray semicolons are skipped at
every statement boundary, both at top level and inside a block, so that
`{ ; 3 }` parses successfully.  In fact only `Parser::parse` skips them;
`parse_block_expression` does not, and parsing the token sequence of
`{ ; 3 }` fails with "unexpected start of expression: Semicolon". -/
theorem c9_block_stray_semicolon_fails :
    lexAll 99 "{ ; 3 }".toList =
      .ok [.lbrace, .semicolon, .int 3, .rbrace, .eof] ∧
    parseRoot 99 [.lbrace, .semicolon, .int 3, .rbrace, .eof] =
      .error (.errorMsg "unexpected start of expression: Semicolon") := by
  exact ⟨rfl, rfl⟩

/-- C9, amended.  Stray `Semicolon` tokens are skipped at TOP-LEVEL statement
boundaries only (`Parser::parse` consumes a leading semicolon and continues),
so `3; ; 4` parses successfully; between statements inside a block
`{ ... }` a stray semicolon is NOT skipped and parsing fails with
"unexpected start of expression: Semicolon" (e.g. `{ 1; ; 2 }`). -/
theorem c9_top_level_skip_only :
    (∀ f acc ts, parseRootLoop (f + 1) acc (.semicolon :: ts) =
      parseRootLoop f acc ts) ∧
    lexAll 99 "3; ; 4".toList =
      .ok [.int 3, .semicolon, .semicolon, .int 4, .eof] ∧
    parseRoot 99 [.int 3, .semicolon, .semicolon, .int 4, .eof] =
      .ok ([.exprStmt (.intLit 3), .exprStmt (.intLit 4)], [.eof]) ∧
    parseRoot 99 [.lbrace, .int 1, .semicolon, .semicolon, .int 2, .rbrace,
        .eof] =
      .error (.errorMsg "unexpected start of expression: Semicolon") := by
  exact ⟨fun f acc ts => rfl, rfl, rfl, rfl⟩

/-- C10.  Each cast built-in accepts only its listed input kinds and is not
the identity on its target kind: `bool` applied to a `Bool`, `int` to an
`Int`, `float` to a `Float` and `str` to a `Str` all fail with
"argument type mismatch" (each closure's downcast chain omits its own target
kind), and end-to-end `bool(true)` evaluates to that error.  The calling
convention binds the single parameter `v` in the fresh frame, as
`eval_call_expression_node` does. -/
theorem c10_casts_not_identity :
    (∀ b, callBuiltin .toBool (Env.mk [(['v'], .bool b)] none) =
      .error "argument type mismatch") ∧
    (∀ i, callBuiltin .toInt (Env.mk [(['v'], .int i)] none) =
      .error "argument type mismatch") ∧
    (∀ q, callBuiltin .toFloat (Env.mk [(['v'], .float q)] none) =
      .error "argument type mismatch") ∧
    (∀ s, callBuiltin .toStr (Env.mk [(['v'], .str s)] none) =
      .error "argument type mismatch") ∧
    (∀ q, callBuiltin .toInt (Env.mk [(['v'], .float q)] none) =
      .ok (.int (Int.tdiv q.num q.den))) ∧
    (∀ i, callBuiltin .toFloat (Env.mk [(['v'], .int i)] none) =
      .ok (.float (i : ℚ))) ∧
    evalSource 99 "bool(true)".toList = .error "argument type mismatch" := by
  exact ⟨fun b => rfl, fun i => rfl, fun q => rfl, fun s => rfl, fun q => rfl,
    fun i => rfl, rfl⟩

/-- C2.  Root/block asymmetry: for EVERY statement list, fuel and
environment, `eval_root_node` equals the block statement loop with
`unwrapReturn` applied to its result — the block loop stops at a
`ReturnValue` and yields it still wrapped, the root unwraps it — and
consequently the nested-block program
`if (10 > 1) { if (10 > 1) { return 10; } return 1; }` evaluates to
`Int 10`, not `Int 1`. -/
theorem c2_root_unwraps_block_wraps :
    (∀ fuel stmts env, evalRootNode fuel stmts env =
      ((evalBlockLoop fuel stmts env).1.map unwrapReturn,
       (evalBlockLoop fuel stmts env).2)) ∧
    evalSource 99
        "if (10 > 1) { if (10 > 1) { return 10; } return 1; }".toList =
      .ok (.int 10) := by
  constructor
  · intro fuel
    induction fuel with
    | zero => intro stmts env; rfl
    | succ f IH =>
      intro stmts env
      cases stmts with
      | nil => rfl
      | cons s rest =>
        simp only [evalRootNode, evalBlockLoop]
        rcases h : evalStmt f s env with ⟨r, env'⟩
        cases r with
        | error e => rfl
        | ok ret => cases ret <;> cases rest <;>
            simp [IH, unwrapReturn, Except.map]
  · rfl

/-- Helper for C3: `Environment::set_outer` attaches the new outer
environment at the OUTER-MOST end of the chain (the recursive call in the
source exists exactly for this), so the scope chain of `E.set_outer(O)` is
the chain of `E` followed by the chain of `O`. -/
theorem envChain_setOuter :
    ∀ E O, envChain (Env.setOuter E (some O)) = envChain E ++ envChain O
  | .mk m none, O => by simp [Env.setOuter, envChain]
  | .mk m (some e), O => by
    simp [Env.setOuter, envChain, envChain_setOuter e O]

/-- C3.  Calling a user `Function`: (i) the argument-binding loop evaluates
each argument in the CALLER's environment, left to right, binding it in the
fresh frame; (ii) once the arguments are bound into the fresh frame `F`, the
body is evaluated as a block under `F.set_outer(C.set_outer(caller))` — the
chain `F → C → caller`, where `C` is the closure's captured environment —
and a `ReturnValue` result is unwrapped; (iii) `set_outer` really appends at
the outer-most end, so the scope chain seen by the body is
`F`'s scopes ++ `C`'s scopes ++ caller's scopes (free identifiers resolve
lexically at the definition site first); and (iv) consequently
`let f = fn(x){ fn(y){ x + y } }; let g = f(1); g(2)` evaluates to
`Int 3`. -/
theorem c3_call_env_chain :
    (∀ f p ps a args fenv env,
      evalArgsBind (f + 1) (p :: ps) (a :: args) fenv env =
        (match evalExpr f a env with
         | (.error e, env') => (.error e, env')
         | (.ok v, env') => evalArgsBind f ps args (fenv.set p v) env')) ∧
    (∀ f params body cenv args env fenv env₁,
      args.length = params.length →
      evalArgsBind f params args (Env.mk [] none) env = (.ok fenv, env₁) →
      evalCallWithCallee (f + 1) (.function params body cenv) args env =
        ((evalBlockExpressionNode f body
            (Env.setOuter fenv (some (Env.setOuter cenv (some env₁))))).1.map
          unwrapReturn, env₁)) ∧
    (∀ F C caller, envChain (Env.setOuter F (some (Env.setOuter C
        (some caller)))) = envChain F ++ envChain C ++ envChain caller) ∧
    evalSource 99
        "let f = fn(x) { fn(y) { x + y } }; let g = f(1); g(2)".toList =
      .ok (.int 3) := by
  refine ⟨fun f p ps a args fenv env => rfl, ?_, ?_, rfl⟩
  · intro f params body cenv args env fenv env₁ hlen hargs
    have hcond :
        ¬ (args.length ≠ (calleeParameters (.function params body cenv)).length) := by
      simp [calleeParameters, hlen]
    rcases hb : evalBlockExpressionNode f body
        (Env.setOuter fenv (some (Env.setOuter cenv (some env₁)))) with ⟨r, e2⟩
    cases r with
    | error e =>
      simp [evalCallWithCallee, calleeParameters, hcond, hargs, hb, hlen,
        Except.map]
    | ok result =>
      cases result <;>
        simp [evalCallWithCallee, calleeParameters, hcond, hargs, hb, hlen,
          Except.map, unwrapReturn]
  · intro F C caller
    rw [envChain_setOuter, envChain_setOuter, List.append_assoc]

/-- Witness for `c3_call_env_chain`: part (ii) applied to the one-parameter
identity function called on the literal `1` from an empty caller
environment; the hypotheses are discharged by evaluation. -/
theorem c3_call_env_chain_witness :
    evalCallWithCallee 6
        (.function [['x']] [.exprStmt (.ident ['x'])] (Env.mk [] none))
        [.intLit 1] (Env.mk [] none) =
      ((evalBlockExpressionNode 5 [.exprStmt (.ident ['x'])]
          (Env.setOuter (Env.mk [(['x'], .int 1)] none)
            (some (Env.setOuter (Env.mk [] none)
              (some (Env.mk [] none)))))).1.map unwrapReturn,
       Env.mk [] none) :=
  c3_call_env_chain.2.1 5 [['x']] [.exprStmt (.ident ['x'])] (Env.mk [] none)
    [.intLit 1] (Env.mk [] none) (Env.mk [(['x'], .int 1)] none)
    (Env.mk [] none) rfl rfl

/-- C5.  Index expressions: for a string-literal target and an `Int`-literal
index `i`, `s[i]` errors with "negative array index not allowed" when
`i < 0`, errors with "array index out of bounds" when `i` is at least the
SCALAR count of `s`, and returns the `i`-th Unicode scalar as a `Char`
otherwise; an array target behaves the same returning the `i`-th element; a
non-`Int` index fails with "non-integer array index found"; and end-to-end
`"あいうえお"[1]` is the scalar `'い'` (scalars, not bytes). -/
theorem c5_index_guards :
    (∀ f env (s : List Char) (i : Int),
      evalExpr (f + 4) (.index (.strLit s) (.intLit i)) env =
        (if i < 0 then (.error "negative array index not allowed", env)
         else if s.length ≤ i.toNat then
           (.error "array index out of bounds", env)
         else (.ok (.char (s.getD i.toNat (Char.ofNat 0))), env))) ∧
    (∀ f env name vs (i : Int),
      lookupBuiltinIdentifier name = none →
      Env.get env name = some (.array vs) →
      evalExpr (f + 4) (.index (.ident name) (.intLit i)) env =
        (if i < 0 then (.error "negative array index not allowed", env)
         else if vs.length ≤ i.toNat then
           (.error "array index out of bounds", env)
         else (.ok (vs.getD i.toNat .null), env))) ∧
    (∀ f env (s : List Char) (q : ℚ),
      evalExpr (f + 4) (.index (.strLit s) (.floatLit q)) env =
        (.error "non-integer array index found", env)) ∧
    evalSource 99 "\"あいうえお\"[1]".toList = .ok (.char 'い') := by
  refine ⟨fun f env s i => rfl, ?_, fun f env s q => rfl, rfl⟩
  intro f env name vs i hb hg
  simp [evalExpr, evalIndexExpressionNode, evalIndexTarget, evalIndexApply,
    evalIdentifierNode, hb, hg, numElement]

/-- Witness for `c5_index_guards`: the identifier-target part applied to an
environment binding `a` to the two-element array `[10, 11]` at index `1`. -/
theorem c5_index_guards_witness :
    evalExpr 4 (.index (.ident ['a']) (.intLit 1))
        (Env.mk [(['a'], .array [.int 10, .int 11])] none) =
      (if (1 : Int) < 0 then
         (.error "negative array index not allowed",
          Env.mk [(['a'], .array [.int 10, .int 11])] none)
       else if [Obj.int 10, Obj.int 11].length ≤ (1 : Int).toNat then
         (.error "array index out of bounds",
          Env.mk [(['a'], .array [.int 10, .int 11])] none)
       else
         (.ok ([Obj.int 10, Obj.int 11].getD (1 : Int).toNat .null),
          Env.mk [(['a'], .array [.int 10, .int 11])] none)) :=
  c5_index_guards.2.1 0 (Env.mk [(['a'], .array [.int 10, .int 11])] none)
    ['a'] [.int 10, .int 11] 1 rfl rfl

/-- C8.  Identifier resolution consults the built-in table BEFORE walking
the environment chain, so in EVERY environment an identifier that names a
built-in yields the table's value; `let` of a built-in name is refused
before evaluating its right-hand side; and consequently even a function
parameter sharing a built-in's name is never observed:
`let f = fn(len) { len }; f(3)` evaluates to the built-in `len` function,
not `Int 3`. -/
theorem c8_builtin_resolution :
    (∀ f name env o, lookupBuiltinIdentifier name = some o →
      evalExpr (f + 1) (.ident name) env = (.ok o, env)) ∧
    (∀ f name e env o, lookupBuiltinIdentifier name = some o →
      evalStmt (f + 2) (.letStmt name e) env =
        (.error ("`" ++ String.mk name ++ "` is a built-in identifier"),
         env)) ∧
    evalSource 99 "let f = fn(len) { len }; f(3)".toList =
      .ok (.builtinFunction [['l']] .len) := by
  refine ⟨?_, ?_, rfl⟩
  · intro f name env o h
    simp [evalExpr, evalIdentifierNode, h]
  · intro f name e env o h
    simp [evalStmt, evalLetStatementNode, h]

/-- Witness for `c8_builtin_resolution`: resolving `len` in an environment
whose current scope BINDS `len` to `Int 3` still yields the built-in. -/
theorem c8_builtin_resolution_witness :
    evalExpr 1 (.ident ['l', 'e', 'n'])
        (Env.mk [(['l', 'e', 'n'], .int 3)] none) =
      (.ok (.builtinFunction [['l']] .len),
       Env.mk [(['l', 'e', 'n'], .int 3)] none) :=
  c8_builtin_resolution.1 0 ['l', 'e', 'n']
    (Env.mk [(['l', 'e', 'n'], .int 3)] none)
    (.builtinFunction [['l']] .len) rfl

/-- A block evaluation returns the caller's environment untouched (it only
works on its own child environment): immediate from the shape of
`evalBlockExpressionNode`. -/
theorem evalBlockExpressionNode_snd (f : Nat) (stmts : List Stmt) (env : Env) :
    (evalBlockExpressionNode f stmts env).2 = env := by
  cases f with
  | zero => rfl
  | succ g =>
    simp only [evalBlockExpressionNode]
    rcases evalBlockLoop g stmts (Env.mk [] (some env)) with ⟨r, e⟩
    cases r <;> rfl

/-- EXPRESSION evaluation never mutates the environment it is given: only
`let` statements insert bindings, and they are confined to root iteration
and to block-local child environments.  Stated simultaneously for every
expression-evaluating function of the mutual block and proved by induction
on fuel. -/
theorem evalExpr_preserves_env : ∀ fuel,
    (∀ e env, (evalExpr fuel e env).2 = env) ∧
    (∀ es env, (evalExprList fuel es env).2 = env) ∧
    (∀ ps args fenv env, (evalArgsBind fuel ps args fenv env).2 = env) ∧
    (∀ callee args env, (evalCallWithCallee fuel callee args env).2 = env) ∧
    (∀ op ex env, (evalUnaryExpressionNode fuel op ex env).2 = env) ∧
    (∀ op l r env, (evalBinaryExpressionNode fuel op l r env).2 = env) ∧
    (∀ a env, (evalIndexTarget fuel a env).2 = env) ∧
    (∀ arr i env, (evalIndexApply fuel arr i env).2 = env) ∧
    (∀ a i env, (evalIndexExpressionNode fuel a i env).2 = env) ∧
    (∀ fe args env, (evalCallExpressionNode fuel fe args env).2 = env) ∧
    (∀ c t e env, (evalIfExpressionNode fuel c t e env).2 = env) ∧
    (∀ es env, (evalArrayLiteralNode fuel es env).2 = env) := by
  intro fuel
  induction fuel with
  | zero =>
    exact ⟨fun _ _ => rfl, fun _ _ => rfl, fun _ _ _ _ => rfl,
      fun _ _ _ => rfl, fun _ _ _ => rfl, fun _ _ _ _ => rfl,
      fun _ _ => rfl, fun _ _ _ => rfl, fun _ _ _ => rfl,
      fun _ _ _ => rfl, fun _ _ _ _ => rfl, fun _ _ => rfl⟩
  | succ f IH =>
    obtain ⟨ih1, ih2, ih3, ih4, ih5, ih6, ih7a, ih7b, ih7, ih8, ih9, ih10⟩ :=
      IH
    refine ⟨?_, ?_, ?_, ?_, ?_, ?_, ?_, ?_, ?_, ?_, ?_, ?_⟩
    · intro e env
      cases e with
      | block stmts => exact evalBlockExpressionNode_snd f stmts env
      | unary op ex => exact ih5 op ex env
      | binary op l r => exact ih6 op l r env
      | index a i => exact ih7 a i env
      | call fe args => exact ih8 fe args env
      | ifExpr c t e' => exact ih9 c t e' env
      | arrayLit es => exact ih10 es env
      | intLit i => rfl
      | floatLit q => rfl
      | boolLit b => rfl
      | charLit c => rfl
      | strLit s => rfl
      | functionLit ps body => rfl
      | ident name => rfl
    · intro es env
      cases es with
      | nil => rfl
      | cons e rest =>
        simp only [evalExprList]
        rcases h1 : evalExpr f e env with ⟨r, env'⟩
        have he : env' = env := by have := ih1 e env; rw [h1] at this; exact this
        cases r with
        | error er => simpa using he
        | ok o =>
          subst he
          rcases h2 : evalExprList f rest env' with ⟨r2, env''⟩
          have he2 : env'' = env' := by
            have := ih2 rest env'; rw [h2] at this; exact this
          cases r2 <;> simp [h2, he2]
    · intro ps args fenv env
      cases ps with
      | nil => cases args with | nil => rfl | cons a as => rfl
      | cons p ps' =>
        cases args with
        | nil => rfl
        | cons a as =>
          simp only [evalArgsBind]
          rcases h1 : evalExpr f a env with ⟨r, env'⟩
          have he : env' = env := by
            have := ih1 a env; rw [h1] at this; exact this
          cases r with
          | error er => simpa using he
          | ok v =>
            have := ih3 ps' as (fenv.set p v) env'
            simpa [this] using he
    · intro callee args env
      simp only [evalCallWithCallee]
      split
      · rfl
      · rcases h1 : evalArgsBind f (calleeParameters callee) args
            (Env.mk [] none) env with ⟨r, env₁⟩
        have he : env₁ = env := by
          have := ih3 (calleeParameters callee) args (Env.mk [] none) env
          rw [h1] at this; exact this
        cases r with
        | error er => simpa using he
        | ok fenv =>
          cases callee with
          | function ps body cenv =>
            rcases hb : evalBlockExpressionNode f body
                (fenv.setOuter (some (cenv.setOuter (some env₁)))) with ⟨rb, eb⟩
            cases rb with
            | error er => simpa [hb] using he
            | ok result => cases result <;> simpa [hb] using he
          | builtinFunction ps tag => simpa using he
          | null => simpa using he
          | int v => simpa using he
          | float v => simpa using he
          | bool v => simpa using he
          | char v => simpa using he
          | str v => simpa using he
          | array v => simpa using he
          | returnValue v => simpa using he
    · intro op ex env
      simp only [evalUnaryExpressionNode]
      rcases h1 : evalExpr f ex env with ⟨r, env'⟩
      have he : env' = env := by have := ih1 ex env; rw [h1] at this; exact this
      cases r <;> simpa using he
    · intro op l r env
      simp only [evalBinaryExpressionNode]
      rcases h1 : evalExpr f l env with ⟨rl, env₁⟩
      have he1 : env₁ = env := by have := ih1 l env; rw [h1] at this; exact this
      cases rl with
      | error er => simpa using he1
      | ok lv =>
        subst he1
        rcases h2 : evalExpr f r env₁ with ⟨rr, env₂⟩
        have he2 : env₂ = env₁ := by
          have := ih1 r env₁; rw [h2] at this; exact this
        cases rr <;> simp [h2, he2]
    · intro a env
      cases a with
      | arrayLit es =>
        simp only [evalIndexTarget]
        rcases h1 : evalExpr f (.arrayLit es) env with ⟨r, env'⟩
        have he : env' = env := by
          have := ih1 (.arrayLit es) env; rw [h1] at this; exact this
        cases r with
        | error er => simpa using he
        | ok o => cases o <;> simpa using he
      | strLit str =>
        simp only [evalIndexTarget]
        rcases h1 : evalExpr f (.strLit str) env with ⟨r, env'⟩
        have he : env' = env := by
          have := ih1 (.strLit str) env; rw [h1] at this; exact this
        cases r with
        | error er => simpa using he
        | ok o => cases o <;> simpa using he
      | ident name =>
        simp only [evalIndexTarget]
        cases h1 : evalIdentifierNode name env with
        | error er => simp [h1]
        | ok o => cases o <;> simp [h1]
      | intLit i => rfl
      | floatLit q => rfl
      | boolLit b => rfl
      | charLit c => rfl
      | block stmts => rfl
      | unary op ex => rfl
      | binary op l r => rfl
      | index a2 i2 => rfl
      | call fe as => rfl
      | ifExpr c t e2 => rfl
      | functionLit ps body => rfl
    · intro arr i env
      simp only [evalIndexApply]
      rcases h2 : evalExpr f i env with ⟨ri, env₂⟩
      have he2 : env₂ = env := by
        have := ih1 i env; rw [h2] at this; exact this
      cases ri with
      | error er => simpa using he2
      | ok idxO =>
        cases idxO with
        | int iv =>
          simp only [h2]
          split
          · simpa using he2
          · split
            · simpa using he2
            · cases arr <;> simp [he2]
        | null => simp [h2, he2]
        | float v => simp [h2, he2]
        | bool v => simp [h2, he2]
        | char v => simp [h2, he2]
        | str v => simp [h2, he2]
        | array v => simp [h2, he2]
        | returnValue v => simp [h2, he2]
        | function p b e => simp [h2, he2]
        | builtinFunction p t => simp [h2, he2]
    · intro a i env
      simp only [evalIndexExpressionNode]
      rcases h1 : evalIndexTarget f a env with ⟨r, env₁⟩
      have he : env₁ = env := by
        have := ih7a a env; rw [h1] at this; exact this
      cases r with
      | error er => simpa using he
      | ok arr =>
        have := ih7b arr i env₁
        simpa [this] using he
    · intro fe args env
      cases fe with
      | functionLit ps body =>
        simp only [evalCallExpressionNode]
        rcases h1 : evalExpr f (.functionLit ps body) env with ⟨r, env'⟩
        have he : env' = env := by
          have := ih1 (.functionLit ps body) env; rw [h1] at this; exact this
        cases r with
        | error er => simpa using he
        | ok o =>
          cases o <;> try simpa using he
          case function ps2 body2 cenv =>
            have := ih4 (.function ps2 body2 cenv) args env'
            simpa [this] using he
      | ident name =>
        simp only [evalCallExpressionNode]
        cases h1 : evalIdentifierNode name env with
        | error er => simp [h1]
        | ok o =>
          cases o <;> simp [h1]
          case function ps2 body2 cenv =>
            exact ih4 (.function ps2 body2 cenv) args env
          case builtinFunction ps2 tag =>
            exact ih4 (.builtinFunction ps2 tag) args env
      | intLit i => rfl
      | floatLit q => rfl
      | boolLit b => rfl
      | charLit c => rfl
      | strLit str => rfl
      | arrayLit es => rfl
      | block stmts => rfl
      | unary op ex => rfl
      | binary op l r => rfl
      | index a2 i2 => rfl
      | call fe2 as => rfl
      | ifExpr c t e2 => rfl
    · intro c t e env
      simp only [evalIfExpressionNode]
      rcases h1 : evalExpr f c env with ⟨r, env₁⟩
      have he : env₁ = env := by have := ih1 c env; rw [h1] at this; exact this
      cases r with
      | error er => simpa using he
      | ok o =>
        cases o <;> try simpa using he
        case bool b =>
          cases b with
          | true =>
            have := ih1 (.block t) env₁
            simpa [this] using he
          | false =>
            cases e with
            | some bs =>
              have := ih1 (.block bs) env₁
              simpa [this] using he
            | none => simpa using he
    · intro es env
      simp only [evalArrayLiteralNode]
      rcases h1 : evalExprList f es env with ⟨r, env'⟩
      have he : env' = env := by
        have := ih2 es env; rw [h1] at this; exact this
      cases r <;> simpa using he

/-- C7.  `let name = e;` semantics: (i) when `name` is a built-in the
statement fails with "`name` is a built-in identifier" BEFORE evaluating
`e` (the error is produced for every right-hand side and every fuel, even
fuel on which evaluating `e` could not start), leaving the environment
unchanged; (ii) when the right-hand side errors, the error propagates and
the environment is unchanged; (iii) when `name` is already bound in the
CURRENT scope the statement fails with "`name` is already defined" and the
environment is unchanged; (iv) otherwise exactly the binding `name ↦ value`
is added to the current scope (the outer chain, where shadowing is allowed,
is not consulted) and the statement evaluates to `Null`.  End-to-end:
re-definition in the same scope errors, shadowing in an inner block
succeeds. -/
theorem c7_let_statement :
    (∀ f name e env o, lookupBuiltinIdentifier name = some o →
      evalStmt (f + 2) (.letStmt name e) env =
        (.error ("`" ++ String.mk name ++ "` is a built-in identifier"),
         env)) ∧
    (∀ f name e env msg env', lookupBuiltinIdentifier name = none →
      evalExpr f e env = (.error msg, env') →
      evalStmt (f + 2) (.letStmt name e) env = (.error msg, env)) ∧
    (∀ f name e env v env' w, lookupBuiltinIdentifier name = none →
      evalExpr f e env = (.ok v, env') →
      lookupList (Env.m env) name = some w →
      evalStmt (f + 2) (.letStmt name e) env =
        (.error ("`" ++ String.mk name ++ "` is already defined"), env)) ∧
    (∀ f name e env v env', lookupBuiltinIdentifier name = none →
      evalExpr f e env = (.ok v, env') →
      lookupList (Env.m env) name = none →
      evalStmt (f + 2) (.letStmt name e) env =
        (.ok .null, Env.mk (insertList (Env.m env) name v) (Env.outer env))) ∧
    evalSource 99 "let a = 1; let a = 2;".toList =
      .error "`a` is already defined" ∧
    evalSource 99 "{ let a = 1; { let a = 2; a } }".toList = .ok (.int 2) := by
  refine ⟨?_, ?_, ?_, ?_, rfl, rfl⟩
  · intro f name e env o hb
    simp [evalStmt, evalLetStatementNode, hb]
  · intro f name e env msg env' hb h2
    have he : env' = env := by
      have := (evalExpr_preserves_env f).1 e env
      rw [h2] at this; exact this
    subst he
    simp [evalStmt, evalLetStatementNode, hb, h2]
  · intro f name e env v env' w hb h2 hw
    have he : env' = env := by
      have := (evalExpr_preserves_env f).1 e env
      rw [h2] at this; exact this
    subst he
    rcases env' with ⟨m, outer⟩
    simp only [Env.m] at hw
    simp [evalStmt, evalLetStatementNode, Env.trySet, hb, h2, hw]
  · intro f name e env v env' hb h2 hw
    have he : env' = env := by
      have := (evalExpr_preserves_env f).1 e env
      rw [h2] at this; exact this
    subst he
    rcases env' with ⟨m, outer⟩
    simp only [Env.m] at hw
    simp [evalStmt, evalLetStatementNode, Env.trySet, Env.m, Env.outer, hb,
      h2, hw]

/-- Witness for `c7_let_statement`: the fresh-binding part at
`let a = 1;` in an empty environment. -/
theorem c7_let_statement_witness :
    evalStmt 3 (.letStmt ['a'] (.intLit 1)) (Env.mk [] none) =
      (.ok .null, Env.mk (insertList [] ['a'] (.int 1)) none) :=
  c7_let_statement.2.2.2.1 1 ['a'] (.intLit 1) (Env.mk [] none) (.int 1)
    (Env.mk [] none) rfl rfl rfl

/-- Helper for C4: a digit is not equal to any concrete non-digit
character. -/
theorem char_ne_of_digit {c d : Char} (hc : c.isDigit = true)
    (hd : d.isDigit = false) : c ≠ d := by
  intro h
  subst h
  rw [hc] at hd
  exact absurd hd (by decide)

/-- Helper for C4: a list headed by a digit differs from any list headed by
a non-digit. -/
theorem cons_ne_of_digit {c d : Char} {cs ds : List Char}
    (hc : c.isDigit = true) (hd : d.isDigit = false) : c :: cs ≠ d :: ds := by
  intro h
  rw [List.cons.injEq] at h
  exact char_ne_of_digit hc hd h.1

/-- Helper for C4: an all-digit character list does not contain a dot. -/
theorem digits_no_dot {l : List Char} (h : ∀ x ∈ l, x.isDigit = true) :
    l.contains '.' = false := by
  by_contra hc
  rw [Bool.not_eq_false] at hc
  have hmem : '.' ∈ l := by simpa using hc
  exact absurd (h '.' hmem) (by decide)

/-- Helper for C4: a digit is not an ASCII whitespace character. -/
theorem ws_of_digit {c : Char} (hc : c.isDigit = true) :
    isAsciiWhitespace c = false := by
  unfold isAsciiWhitespace
  simp only [Bool.or_eq_false_iff, decide_eq_false_iff_not]
  refine ⟨⟨⟨⟨?_, ?_⟩, ?_⟩, ?_⟩, ?_⟩ <;> (rintro rfl; exact absurd hc (by decide))

/-- Helper for C4: `token::lookup_token` classifies a non-empty all-digit
sequence whose value fits in `i64` as the `Int` token of exactly that
value (no keyword or operator string starts with a digit, the quote guards
fail, and the digit guard parses through `parseI64`). -/
theorem lookupToken_digits {c : Char} {cs : List Char} (hc : c.isDigit = true)
    (hall : ∀ x ∈ c :: cs, x.isDigit = true)
    (hle : (digitsVal (c :: cs) : Int) ≤ i64Max) :
    lookupToken (c :: cs) = .ok (.int (digitsVal (c :: cs))) := by
  unfold lookupToken
  iterate 31 rw [if_neg (cons_ne_of_digit hc (by decide))]
  simp only [List.headD_cons]
  rw [if_neg (char_ne_of_digit hc (by decide)),
    if_neg (char_ne_of_digit hc (by decide)),
    if_pos (show isDigitOrDot c = true by simp [isDigitOrDot, hc])]
  rw [show (c :: cs).contains '.' = false from digits_no_dot hall]
  simp only [Bool.false_eq_true, if_false, parseI64]
  rw [if_neg (by simp), if_pos (List.all_eq_true.mpr hall), if_pos hle]

/-- C4.  Lexing integer literals: for every non-empty decimal digit string
without a dot whose value fits in a signed 64-bit integer, `get_next_token`
succeeds and produces an `Int` token carrying exactly that value, and the
evaluator maps an integer literal to a run-time `Int` of the same value (in
this embedding's `i64` model, which follows `token.rs`, `ast.rs` and
`builtin.rs`).  The concrete literal `2147483648` lexes to the token value
`2147483648`, which exceeds `i32Max` — the payload bound of the run-time
`Int` as declared by the packaged `src/object.rs` (`value: i32`), so that
declaration cannot preserve it. -/
theorem c4_int_literal_lexing :
    (∀ ds : List Char, ds ≠ [] → (∀ x ∈ ds, x.isDigit = true) →
      (digitsVal ds : Int) ≤ i64Max →
      getNextToken ds = .ok (.int (digitsVal ds), [])) ∧
    getNextToken "2147483648".toList = .ok (.int 2147483648, []) ∧
    ¬ ((2147483648 : Int) ≤ i32Max) ∧
    (∀ f i env, evalExpr (f + 1) (.intLit i) env = (.ok (.int i), env)) := by
  refine ⟨?_, rfl, by decide, fun f i env => rfl⟩
  intro ds hne hall hle
  cases ds with
  | nil => exact absurd rfl hne
  | cons c cs =>
    have hc : c.isDigit = true := hall c (List.mem_cons_self c cs)
    have htake : List.takeWhile isNumberChar (c :: cs) = c :: cs :=
      List.takeWhile_eq_self_iff.mpr
        (fun x hx => by simp [isNumberChar, hall x hx])
    have hdrop : List.dropWhile isNumberChar (c :: cs) = [] :=
      List.dropWhile_eq_nil_iff.mpr
        (fun x hx => by simp [isNumberChar, hall x hx])
    have hcount : (c :: cs).count '.' = 0 :=
      List.count_eq_zero.mpr (fun hmem => absurd (hall '.' hmem) (by decide))
    have hnd : c ≠ '.' := char_ne_of_digit hc (by decide)
    have hlookup := lookupToken_digits hc hall hle
    simp [getNextToken, List.dropWhile_cons, ws_of_digit hc, isNumberChar, hc,
      readNumber, htake, hdrop, hcount, hnd, hlookup]

/-- Witness for `c4_int_literal_lexing`: the universal lexing part at the
concrete digit string `42`. -/
theorem c4_int_literal_lexing_witness :
    getNextToken ['4', '2'] = .ok (.int (digitsVal ['4', '2']), []) :=
  c4_int_literal_lexing.1 ['4', '2'] (by decide) (by decide) (by decide)

end Monkey
